import Mathlib

/-!
# mangadownloader: the MangaReader service

A shallow embedding of `service_mangareader.go` and `manga.go`.

* Go strings are Lean `String`s (sequences of runes).
* A Go result pair `(value, error)` is a Lean pair whose second component is an
  `Option GoError` (`none` is the `nil` error).
* The document fetcher is an effect: every operation takes the log of the fetches
  performed so far and returns its result together with the extended log.
-/

namespace Mangadownloader

/-! ## Data model -/

/-- Go `error` values met in this package: `errors.New msg`, the `*strconv.NumError`
of a failed integer parse, and any other error value (transport, URL parsing),
identified by its text. -/
inductive GoError where
  | errorsNew (msg : String)
  | numError (func num err : String)
  | other (msg : String)
deriving DecidableEq, Repr

/-- Go `url.URL`, field by field. -/
structure URL where
  Scheme : String := ""
  Opaque : String := ""
  User : Option (String × Option String) := none
  Host : String := ""
  Path : String := ""
  RawQuery : String := ""
  Fragment : String := ""
deriving DecidableEq, Repr

/-- Go `html.NodeType`. -/
inductive NodeType where
  | ErrorNode | TextNode | DocumentNode | ElementNode | CommentNode | DoctypeNode
deriving DecidableEq, Repr

/-- Go `html.Attribute`. -/
structure Attribute where
  Namespace : String := ""
  Key : String
  Val : String
deriving DecidableEq, Repr

/-- Go `html.Node`: node type, data (tag name of an element, content of a text node),
attributes and the children in document order. -/
inductive Node where
  | mk (Typ : NodeType) (Data : String) (Attr : List Attribute) (children : List Node)

/-- Go `node.Type`. -/
def Node.Typ : Node → NodeType
  | .mk t _ _ _ => t

/-- Go `node.Data`. -/
def Node.Data : Node → String
  | .mk _ d _ _ => d

/-- Go `node.Attr`. -/
def Node.Attr : Node → List Attribute
  | .mk _ _ a _ => a

/-- Go `node.FirstChild` (`none` is `nil`). -/
def Node.FirstChild : Node → Option Node
  | .mk _ _ _ cs => cs.head?

/-- Go `goquery.Document`, seen through the one method the service calls:
`doc.Find(selector).Nodes`, the matching elements in document order. -/
structure Document where
  Find : String → List Node

/-- Modelled from the spec: the Downloader Context (`Md`), which gives access to the
Document Fetcher `fetch(locator) -> ParsedDocument | Error`. The remote answer may
depend on the fetches made before (remote content may change between calls). -/
structure MangaDownloader where
  remote : List URL → URL → Except GoError Document

/-- Modelled from the spec: `Md.HttpGetHtmlDoc(u)`, one document fetch of `u`,
recorded at the end of the fetch log. -/
def MangaDownloader.HttpGetHtmlDoc (md : MangaDownloader) (u : URL) (log : List URL) :
    Except GoError Document × List URL :=
  (md.remote log u, log ++ [u])

/-- The service of `service_mangareader.go`. -/
structure MangaReaderService where
  Md : MangaDownloader

/-- Modelled from the spec: the `Service` capability interface; its dynamic type is
one of the registered site adapters, of which this package has one. -/
inductive Service where
  | mangaReader (service : MangaReaderService)

/-- Go `Manga` of `manga.go`. -/
structure Manga where
  Url : URL
  Service : Service

/-- Modelled from the spec: `Chapter`, a locator and its owning service. -/
structure Chapter where
  Url : URL
  Service : Service

/-- Modelled from the spec: `Page`, a locator and its owning service. -/
structure Page where
  Url : URL
  Service : Service

/-- The dynamic value of the `interface{}` returned by `Identify`. -/
inductive Entity where
  | manga (m : Manga)
  | chapter (c : Chapter)

/-! ## Helpers of the package -/

/-- Modelled from the spec: `stringSliceContains`, membership of a string in a
slice, by exact comparison. -/
def stringSliceContains : List String → String → Bool
  | [], _ => false
  | x :: xs, s => if x = s then true else stringSliceContains xs s

/-- Modelled from the spec: `urlCopy`, a fresh copy of a URL value. -/
def urlCopy (u : URL) : URL := { u with }

/-- Modelled from the spec: `htmlGetNodeAttribute`, `read-attribute(element, name)`:
the value of the first attribute with that key, the empty string without one. -/
def htmlGetNodeAttribute (node : Node) (key : String) : String :=
  match node.Attr.find? (fun a => a.Key == key) with
  | some a => a.Val
  | none => ""

/-! ## Constants -/

def serviceMangaReaderChapterDigitCount : Nat := 4

def serviceMangaReaderHtmlSelectorIdentifyManga : String := "#chapterlist"
def serviceMangaReaderHtmlSelectorIdentifyChapter : String := "#pageMenu"
def serviceMangaReaderHtmlSelectorMangaName : String := "h2.aname"
def serviceMangaReaderHtmlSelectorMangaChapters : String := "#chapterlist a"
def serviceMangaReaderHtmlSelectorChapterName : String := "#mangainfo h1"
def serviceMangaReaderHtmlSelectorChapterPages : String := "#pageMenu option"
def serviceMangaReaderHtmlSelectorPageImage : String := "#img"

def serviceMangaReaderHosts : List String :=
  ["www.mangareader.net", "mangareader.net"]

/-- The base origin set up by `init`: a zero `url.URL` with scheme `http` and the
first supported host. -/
def serviceMangaReaderUrlBase : URL :=
  { Scheme := "http", Host := serviceMangaReaderHosts.get ⟨0, by decide⟩ }

/-! ## Support detection and identification -/

/-- Go `MangaReaderService.Supports`. -/
def MangaReaderService.Supports (_service : MangaReaderService) (u : URL) : Bool :=
  stringSliceContains serviceMangaReaderHosts u.Host

/-- Go `MangaReaderService.Identify`. -/
def MangaReaderService.Identify (service : MangaReaderService) (u : URL) (log : List URL) :
    (Option Entity × Option GoError) × List URL :=
  if !service.Supports u then
    ((none, some (.errorsNew "Not supported")), log)
  else
    match service.Md.HttpGetHtmlDoc u log with
    | (.error err, log1) => ((none, some err), log1)
    | (.ok doc, log1) =>
      let identifyMangaNodes := doc.Find serviceMangaReaderHtmlSelectorIdentifyManga
      if identifyMangaNodes.length = 1 then
        ((some (.manga { Url := u, Service := .mangaReader service }), none), log1)
      else
        let identifyChapterNodes := doc.Find serviceMangaReaderHtmlSelectorIdentifyChapter
        if identifyChapterNodes.length = 1 then
          ((some (.chapter { Url := u, Service := .mangaReader service }), none), log1)
        else
          ((none, some (.errorsNew "Unknown url")), log1)

/-! ## Manga operations -/

/-- Go `MangaReaderService.MangaName`. -/
def MangaReaderService.MangaName (service : MangaReaderService) (manga : Manga)
    (log : List URL) : (String × Option GoError) × List URL :=
  match service.Md.HttpGetHtmlDoc manga.Url log with
  | (.error err, log1) => (("", some err), log1)
  | (.ok doc, log1) =>
    let nameNodes := doc.Find serviceMangaReaderHtmlSelectorMangaName
    if h : nameNodes.length ≠ 1 then
      (("", some (.errorsNew "Name node not found")), log1)
    else
      let nameNode := nameNodes.get ⟨0, by omega⟩
      match nameNode.FirstChild with
      | none => (("", some (.errorsNew "Name text node not found")), log1)
      | some nameTextNode =>
        let name := nameTextNode.Data
        ((name, none), log1)

/-- Go `MangaReaderService.MangaChapters`: the loop over `linkNodes` appends one
chapter per node. -/
def MangaReaderService.MangaChapters (service : MangaReaderService) (manga : Manga)
    (log : List URL) : (Option (List Chapter) × Option GoError) × List URL :=
  match service.Md.HttpGetHtmlDoc manga.Url log with
  | (.error err, log1) => ((none, some err), log1)
  | (.ok doc, log1) =>
    let linkNodes := doc.Find serviceMangaReaderHtmlSelectorMangaChapters
    let chapters := linkNodes.foldl
      (fun (chapters : List Chapter) linkNode =>
        let chapterUrl := urlCopy serviceMangaReaderUrlBase
        let chapterUrl := { chapterUrl with Path := htmlGetNodeAttribute linkNode "href" }
        chapters ++ [{ Url := chapterUrl, Service := .mangaReader service }])
      []
    ((some chapters, none), log1)

/-! ## Chapter operations -/

/-- Go `serviceMangaReaderRegexpChapterName.FindStringSubmatch`, on the runes of the
text, for the pattern `^.* (\d*)$`. The greedy `.*` first tries to take one more
rune, which `.` allows for every rune but the line feed; where that fails to lead
to a match the pattern goes on with the space, the group `(\d*)` and the end of
the text. The result is the text of the group. -/
def regexpChapterNameGroup : List Char → Option (List Char)
  | [] => none
  | c :: cs =>
    match (if c ≠ '\n' then regexpChapterNameGroup cs else none) with
    | some g => some g
    | none => if c = ' ' ∧ cs.all Char.isDigit then some cs else none

/-- Go `serviceMangaReaderRegexpChapterName.FindStringSubmatch(name)`: `none` is the
`nil` slice, otherwise the whole match (the pattern is anchored at both ends) and
the group. -/
def serviceMangaReaderRegexpChapterName (name : String) : Option (List String) :=
  match regexpChapterNameGroup name.data with
  | none => none
  | some g => some [name, String.mk g]

/-- Go `strconv.IntSize`, on a 64-bit platform. -/
def intSize : Nat := 64

/-- Go `strconv.ErrSyntax`. -/
def ErrSyntax : String := "invalid syntax"

/-- Go `strconv.ErrRange`. -/
def ErrRange : String := "value out of range"

/-- The digit loop of `strconv.ParseUint(s, 10, 64)` over the remaining runes, with
`n` the 64-bit accumulator: a rune that is not a decimal digit is a syntax error,
an accumulator that overflows is a range error. -/
def parseUintLoop : List Char → Nat → Except String Nat
  | [], n => .ok n
  | c :: cs, n =>
    if !c.isDigit then .error ErrSyntax
    else if n ≥ (2 ^ 64 - 1) / 10 + 1 then .error ErrRange
    else
      let n10 := (n * 10) % 2 ^ 64
      let n1 := (n10 + (c.toNat - '0'.toNat)) % 2 ^ 64
      if n1 < n10 ∨ n1 > 2 ^ 64 - 1 then .error ErrRange
      else parseUintLoop cs n1

/-- Go `strconv.ParseUint(s, 10, 64)`: the value and the kind of error. -/
def ParseUint (s : List Char) : Nat × Option String :=
  if s = [] then (0, some ErrSyntax)
  else
    match parseUintLoop s 0 with
    | .ok n => (n, none)
    | .error e => if e = ErrRange then (2 ^ 64 - 1, some e) else (0, some e)

/-- Go `strconv.Atoi(s)`, which is `ParseInt(s, 10, 0)` with the error attributed to
`Atoi`: an optional sign, then `ParseUint`, then the range check of the platform
integer. -/
def Atoi (s : String) : Int × Option GoError :=
  if s.data = [] then (0, some (.numError "Atoi" s ErrSyntax))
  else
    let neg := s.data.head? = some '-'
    let body := if s.data.head? = some '+' ∨ s.data.head? = some '-' then s.data.tail
      else s.data
    match ParseUint body with
    | (un, err) =>
      if err.isSome ∧ err ≠ some ErrRange then (0, some (.numError "Atoi" s ErrSyntax))
      else
        let cutoff : Nat := 2 ^ (intSize - 1)
        if !neg ∧ un ≥ cutoff then ((cutoff : Int) - 1, some (.numError "Atoi" s ErrRange))
        else if neg ∧ un > cutoff then (-(cutoff : Int), some (.numError "Atoi" s ErrRange))
        else (if neg then -(un : Int) else (un : Int), none)

/-- Go `fmt.Sprintf("%0<width>d", a)`: the decimal digits of the absolute value, padded
with zeros on the left up to the width, the sign of a negative number taking one
place of the width. -/
def sprintfZeroPadded (width : Nat) (a : Int) : String :=
  let digits := Nat.toDigits 10 a.natAbs
  let prec := if a < 0 then width - 1 else width
  let padded := List.replicate (prec - digits.length) '0' ++ digits
  String.mk (if a < 0 then '-' :: padded else padded)

/-- Go `fmt.Sprintf(serviceMangaReaderFormatChapter, a)`, the format being `%0`, the
digit count and `d`. -/
def serviceMangaReaderFormatChapter (a : Int) : String :=
  sprintfZeroPadded serviceMangaReaderChapterDigitCount a

/-- Go `MangaReaderService.ChapterName`. -/
def MangaReaderService.ChapterName (service : MangaReaderService) (chapter : Chapter)
    (log : List URL) : (String × Option GoError) × List URL :=
  match service.Md.HttpGetHtmlDoc chapter.Url log with
  | (.error err, log1) => (("", some err), log1)
  | (.ok doc, log1) =>
    let nameNodes := doc.Find serviceMangaReaderHtmlSelectorChapterName
    if h : nameNodes.length ≠ 1 then
      (("", some (.errorsNew "Name node not found")), log1)
    else
      let nameNode := nameNodes.get ⟨0, by omega⟩
      match nameNode.FirstChild with
      | none => (("", some (.errorsNew "Name text node not found")), log1)
      | some nameTextNode =>
        let name := nameTextNode.Data
        match serviceMangaReaderRegexpChapterName name with
        | none => (("", some (.errorsNew "Invalid name format")), log1)
        | some submatches =>
          let name := submatches.getD 1 ""
          match Atoi name with
          | (_, some err) => (("", some err), log1)
          | (nameInt, none) =>
            let name := serviceMangaReaderFormatChapter nameInt
            ((name, none), log1)

/-- Go `MangaReaderService.ChapterPages`: the loop over `optionNodes` appends one page
per node. -/
def MangaReaderService.ChapterPages (service : MangaReaderService) (chapter : Chapter)
    (log : List URL) : (Option (List Page) × Option GoError) × List URL :=
  match service.Md.HttpGetHtmlDoc chapter.Url log with
  | (.error err, log1) => ((none, some err), log1)
  | (.ok doc, log1) =>
    let optionNodes := doc.Find serviceMangaReaderHtmlSelectorChapterPages
    let pages := optionNodes.foldl
      (fun (pages : List Page) optionNode =>
        let pageUrl := urlCopy serviceMangaReaderUrlBase
        let pageUrl := { pageUrl with Path := htmlGetNodeAttribute optionNode "value" }
        pages ++ [{ Url := pageUrl, Service := .mangaReader service }])
      []
    ((some pages, none), log1)

/-! ## Page operations -/

/-- Go `MangaReaderService.PageImageUrl`; `urlParse` is `url.Parse` of the standard
library. -/
def MangaReaderService.PageImageUrl (urlParse : String → Except GoError URL)
    (service : MangaReaderService) (page : Page) (log : List URL) :
    (Option URL × Option GoError) × List URL :=
  match service.Md.HttpGetHtmlDoc page.Url log with
  | (.error err, log1) => ((none, some err), log1)
  | (.ok doc, log1) =>
    let imgNodes := doc.Find serviceMangaReaderHtmlSelectorPageImage
    if h : imgNodes.length ≠ 1 then
      ((none, some (.errorsNew "Image node not found")), log1)
    else
      let imgNode := imgNodes.get ⟨0, by omega⟩
      match urlParse (htmlGetNodeAttribute imgNode "src") with
      | .error err => ((none, some err), log1)
      | .ok imageUrl => ((some imageUrl, none), log1)

/-- Go `MangaReaderService.String`. -/
def MangaReaderService.String (_service : MangaReaderService) : String :=
  "MangaReaderService"

/-! ## Entity accessors (`manga.go`) -/

/-- The method `MangaName` of the `Service` interface, dispatched on the dynamic type. -/
def Service.MangaName : Service → Manga → List URL → (String × Option GoError) × List URL
  | .mangaReader service => service.MangaName

/-- The method `MangaChapters` of the `Service` interface, dispatched on the dynamic
type. -/
def Service.MangaChapters :
    Service → Manga → List URL → (Option (List Chapter) × Option GoError) × List URL
  | .mangaReader service => service.MangaChapters

/-- Go `Manga.Name`. -/
def Manga.Name (manga : Manga) (log : List URL) : (String × Option GoError) × List URL :=
  manga.Service.MangaName manga log

/-- Go `Manga.Chapters`. -/
def Manga.Chapters (manga : Manga) (log : List URL) :
    (Option (List Chapter) × Option GoError) × List URL :=
  manga.Service.MangaChapters manga log

/-! ## Decimal numerals -/

/-- The value of a string of decimal digits, most significant digit first. -/
def decimalValue (digits : List Char) : Nat :=
  digits.foldl (fun n c => n * 10 + (c.toNat - '0'.toNat)) 0

/-- The decimal representation of `k`, left-padded with zeros to the width. -/
def zeroPadded (width k : Nat) : String :=
  String.mk (List.replicate (width - (Nat.repr k).length) '0') ++ Nat.repr k

/-! ## Sample documents and fetcher -/

namespace Sample

/-- An element node. -/
def elem (tag : String) (attrs : List Attribute) (children : List Node) : Node :=
  .mk .ElementNode tag attrs children

/-- A text node. -/
def text (content : String) : Node :=
  .mk .TextNode content [] []

/-- A manga index page: one chapter list with two links, one name heading. -/
def mangaDoc : Document where
  Find := fun selector =>
    if selector = "#chapterlist" then
      [elem "div" [{ Key := "id", Val := "chapterlist" }] []]
    else if selector = "h2.aname" then
      [elem "h2" [{ Key := "class", Val := "aname" }] [text "Naruto"]]
    else if selector = "#chapterlist a" then
      [elem "a" [{ Key := "href", Val := "/123-manga/chapter-7" }] [text "Naruto 7"],
       elem "a" [{ Key := "href", Val := "/123-manga/chapter-8" }] [text "Naruto 8"]]
    else []

/-- A chapter page: one page menu with two options, one name heading. -/
def chapterDoc : Document where
  Find := fun selector =>
    if selector = "#pageMenu" then
      [elem "select" [{ Key := "id", Val := "pageMenu" }] []]
    else if selector = "#mangainfo h1" then
      [elem "h1" [] [text "Naruto 7"]]
    else if selector = "#pageMenu option" then
      [elem "option" [{ Key := "value", Val := "/123-manga/chapter-7" }] [text "1"],
       elem "option" [{ Key := "value", Val := "/123-manga/chapter-7/2" }] [text "2"]]
    else []

/-- A page carrying both structural markers, each once. -/
def bothDoc : Document where
  Find := fun selector =>
    if selector = "#chapterlist" then
      [elem "div" [{ Key := "id", Val := "chapterlist" }] []]
    else if selector = "#pageMenu" then
      [elem "select" [{ Key := "id", Val := "pageMenu" }] []]
    else []

/-- A manga page with two name headings. -/
def twoNamesDoc : Document where
  Find := fun selector =>
    if selector = "#chapterlist" then
      [elem "div" [{ Key := "id", Val := "chapterlist" }] []]
    else if selector = "h2.aname" then
      [elem "h2" [{ Key := "class", Val := "aname" }] [text "Naruto"],
       elem "h2" [{ Key := "class", Val := "aname" }] [text "Bleach"]]
    else []

/-- A manga page whose name heading wraps its text in a `b` element:
`<h2 class="aname"><b>Naruto</b></h2>`. -/
def boldNameDoc : Document where
  Find := fun selector =>
    if selector = "#chapterlist" then
      [elem "div" [{ Key := "id", Val := "chapterlist" }] []]
    else if selector = "h2.aname" then
      [elem "h2" [{ Key := "class", Val := "aname" }] [elem "b" [] [text "Naruto"]]]
    else []

/-- A chapter page whose name heading has the given text. -/
def namedChapterDoc (name : String) : Document where
  Find := fun selector =>
    if selector = "#pageMenu" then
      [elem "select" [{ Key := "id", Val := "pageMenu" }] []]
    else if selector = "#mangainfo h1" then
      [elem "h1" [] [text name]]
    else []

/-- A page without any of the elements the service looks for. -/
def emptyDoc : Document where
  Find := fun _ => []

/-- A site, by path; every other path is a transport error. -/
def md : MangaDownloader where
  remote := fun _ u =>
    if u.Path = "/123-manga" then .ok mangaDoc
    else if u.Path = "/123-manga/chapter-7" then .ok chapterDoc
    else if u.Path = "/both" then .ok bothDoc
    else if u.Path = "/two-names" then .ok twoNamesDoc
    else if u.Path = "/bold-name" then .ok boldNameDoc
    else if u.Path = "/line-feed" then .ok (namedChapterDoc "Naruto\nChapter 7")
    else if u.Path = "/huge" then .ok (namedChapterDoc "Naruto 9223372036854775808")
    else if u.Path = "/123" then .ok (namedChapterDoc "Naruto 123")
    else if u.Path = "/empty" then .ok emptyDoc
    else .error (.other "404 Not Found")

/-- The service over the sample site. -/
def service : MangaReaderService := { Md := md }

/-- A locator on the second supported host. -/
def url (path : String) : URL :=
  { Scheme := "http", Host := "mangareader.net", Path := path }

end Sample

/-! ## More sample sites -/

namespace Sample

/-- A site given by its pages, by path; every other path is a transport error. -/
def siteOf (pages : List (String × Document)) : MangaDownloader where
  remote := fun _ u =>
    match pages.lookup u.Path with
    | some doc => .ok doc
    | none => .error (.other "404 Not Found")

/-- The service over a site with one chapter page, at `/chapter`, whose name
heading has the given text. -/
def chapterService (name : String) : MangaReaderService :=
  { Md := siteOf [("/chapter", namedChapterDoc name)] }

/-- The chapter at `/chapter` of the site with that name heading. -/
def chapterOf (name : String) : Chapter :=
  { Url := url "/chapter", Service := .mangaReader (chapterService name) }

/-- A page of a chapter, with its image. -/
def pageDoc : Document where
  Find := fun selector =>
    if selector = "#img" then
      [elem "img" [{ Key := "id", Val := "img" },
        { Key := "src", Val := "http://i1.mangareader.net/123-manga/7/1.jpg" }] []]
    else []

/-- A page with two elements matching the image selector. -/
def twoImagesDoc : Document where
  Find := fun selector =>
    if selector = "#img" then
      [elem "img" [{ Key := "id", Val := "img" }, { Key := "src", Val := "/1.jpg" }] [],
       elem "img" [{ Key := "id", Val := "img" }, { Key := "src", Val := "/2.jpg" }] []]
    else []

/-- The service over a site with the two pages above. -/
def pageService : MangaReaderService :=
  { Md := siteOf [("/123-manga/chapter-7", pageDoc), ("/two-images", twoImagesDoc)] }

/-- A stand-in for `url.Parse` that knows the image address of the sample site and
rejects every other string. -/
def urlParse (rawurl : String) : Except GoError URL :=
  if rawurl = "http://i1.mangareader.net/123-manga/7/1.jpg" then
    .ok { Scheme := "http", Host := "i1.mangareader.net", Path := "/123-manga/7/1.jpg" }
  else .error (.other "parse error")

end Sample

/-! ## Lemmas on the loops and on the chapter-name transform -/

theorem foldl_append_singleton_eq_map {α β : Type} (f : α → β) (l : List α) (acc : List β) :
    l.foldl (fun acc x => acc ++ [f x]) acc = acc ++ l.map f := by
  induction l generalizing acc with
  | nil => simp
  | cons x xs ih => simp [ih]

theorem regexpChapterNameGroup_digits (d : List Char) (hd : d.all Char.isDigit = true) :
    regexpChapterNameGroup d = none := by
  induction d with
  | nil => rfl
  | cons c cs ih =>
    simp only [List.all_cons, Bool.and_eq_true] at hd
    have hc : c ≠ ' ' := by
      rintro rfl
      exact absurd hd.1 (by decide)
    simp [regexpChapterNameGroup, ih hd.2, hc]

theorem regexpChapterNameGroup_append (pre d : List Char) (hp : '\n' ∉ pre)
    (hd : d.all Char.isDigit = true) :
    regexpChapterNameGroup (pre ++ ' ' :: d) = some d := by
  induction pre with
  | nil =>
    simp [regexpChapterNameGroup, regexpChapterNameGroup_digits d hd]
    simpa using hd
  | cons c cs ih =>
    simp only [List.mem_cons, not_or] at hp
    have hc : c ≠ '\n' := fun h => hp.1 h.symm
    simp [regexpChapterNameGroup, hc, ih hp.2]

theorem foldl_decimal_ge (d : List Char) (n : Nat) :
    n ≤ d.foldl (fun n c => n * 10 + (c.toNat - '0'.toNat)) n := by
  induction d generalizing n with
  | nil => simp
  | cons c cs ih =>
    simp only [List.foldl_cons]
    exact le_trans (by omega) (ih _)

theorem parseUintLoop_digits (d : List Char) (n : Nat) (hd : d.all Char.isDigit = true)
    (hv : d.foldl (fun n c => n * 10 + (c.toNat - '0'.toNat)) n < 2 ^ 64) :
    parseUintLoop d n = .ok (d.foldl (fun n c => n * 10 + (c.toNat - '0'.toNat)) n) := by
  induction d generalizing n with
  | nil => rfl
  | cons c cs ih =>
    simp only [List.all_cons, Bool.and_eq_true] at hd
    simp only [List.foldl_cons] at hv ⊢
    have hge := foldl_decimal_ge cs (n * 10 + (c.toNat - '0'.toNat))
    have hlt : n * 10 + (c.toNat - '0'.toNat) < 2 ^ 64 := lt_of_le_of_lt hge hv
    have h10 : n * 10 % 2 ^ 64 = n * 10 := Nat.mod_eq_of_lt (by omega)
    have h1 : (n * 10 + (c.toNat - '0'.toNat)) % 2 ^ 64 = n * 10 + (c.toNat - '0'.toNat) :=
      Nat.mod_eq_of_lt hlt
    have hcut : ¬ n ≥ (2 ^ 64 - 1) / 10 + 1 := by omega
    simp only [parseUintLoop, hd.1, Bool.not_true, Bool.false_eq_true, if_false, hcut, h10, h1]
    rw [if_neg (by omega)]
    exact ih _ hd.2 hv

theorem ParseUint_digits (d : List Char) (hne : d ≠ []) (hd : d.all Char.isDigit = true)
    (hv : decimalValue d < 2 ^ 64) :
    ParseUint d = (decimalValue d, none) := by
  have hloop := parseUintLoop_digits d 0 hd hv
  unfold ParseUint
  rw [if_neg hne, hloop]
  rfl

theorem head_digit_not_sign (d : List Char) (hd : d.all Char.isDigit = true) :
    d.head? ≠ some '+' ∧ d.head? ≠ some '-' := by
  cases d with
  | nil => simp
  | cons c cs =>
    simp only [List.all_cons, Bool.and_eq_true] at hd
    constructor
    · intro h
      simp only [List.head?_cons, Option.some.injEq] at h
      subst h
      exact absurd hd.1 (by decide)
    · intro h
      simp only [List.head?_cons, Option.some.injEq] at h
      subst h
      exact absurd hd.1 (by decide)

theorem Atoi_digits (d : List Char) (hne : d ≠ []) (hd : d.all Char.isDigit = true)
    (hv : decimalValue d < 2 ^ 63) :
    Atoi (String.mk d) = ((decimalValue d : Int), none) := by
  obtain ⟨hplus, hminus⟩ := head_digit_not_sign d hd
  have hparse := ParseUint_digits d hne hd (lt_trans hv (by norm_num))
  have hv2 : ¬ (decimalValue d ≥ 2 ^ 63) := by omega
  unfold Atoi
  simp only [hne, hplus, hminus, if_false, or_self, hparse, intSize]
  simp only [Option.isSome_none, Bool.false_eq_true, false_and, if_false, hv2, and_false,
    Bool.not_false, decide_False]

theorem digitChar_isDigit (m : Nat) (hm : m < 10) : (Nat.digitChar m).isDigit = true := by
  interval_cases m <;> decide

theorem digitChar_value (m : Nat) (hm : m < 10) :
    (Nat.digitChar m).toNat - '0'.toNat = m := by
  interval_cases m <;> decide

theorem toDigitsCore_decimal (fuel : Nat) :
    ∀ (n : Nat) (acc : List Char), n < fuel →
      ∃ ds : List Char, Nat.toDigitsCore 10 fuel n acc = ds ++ acc ∧
        ds.all Char.isDigit = true ∧ ds ≠ [] ∧ decimalValue ds = n := by
  induction fuel with
  | zero => intro n acc h; omega
  | succ fuel ih =>
    intro n acc hn
    have hmod : n % 10 < 10 := Nat.mod_lt _ (by norm_num)
    by_cases h0 : n / 10 = 0
    · refine ⟨[Nat.digitChar (n % 10)], ?_, ?_, by simp, ?_⟩
      · simp [Nat.toDigitsCore, h0]
      · simp [digitChar_isDigit _ hmod]
      · simp only [decimalValue, List.foldl_cons, List.foldl_nil, Nat.zero_mul, Nat.zero_add]
        rw [digitChar_value _ hmod]
        omega
    · obtain ⟨ds, h1, h2, _, h4⟩ := ih (n / 10) (Nat.digitChar (n % 10) :: acc) (by omega)
      refine ⟨ds ++ [Nat.digitChar (n % 10)], ?_, ?_, by simp, ?_⟩
      · simp [Nat.toDigitsCore, h0, h1]
      · simp [h2, digitChar_isDigit _ hmod]
      · simp only [decimalValue] at h4
        simp only [decimalValue, List.foldl_append, List.foldl_cons, List.foldl_nil, h4]
        rw [digitChar_value _ hmod]
        omega

theorem toDigits_decimal (n : Nat) :
    (Nat.toDigits 10 n).all Char.isDigit = true ∧ Nat.toDigits 10 n ≠ [] ∧
      decimalValue (Nat.toDigits 10 n) = n := by
  obtain ⟨ds, h1, h2, h3, h4⟩ := toDigitsCore_decimal (n + 1) n [] (by omega)
  simp only [List.append_nil] at h1
  simp only [Nat.toDigits, h1]
  exact ⟨h2, h3, h4⟩

/-- The chapter-name transform on a text made of a part without line feed, a space
and a non-empty string of decimal digits whose value fits the platform integer. -/
theorem chapterName_transform (pre d : List Char) (hp : '\n' ∉ pre) (hne : d ≠ [])
    (hd : d.all Char.isDigit = true) (hv : decimalValue d < 2 ^ 63) :
    serviceMangaReaderRegexpChapterName (String.mk (pre ++ ' ' :: d)) =
        some [String.mk (pre ++ ' ' :: d), String.mk d] ∧
      Atoi (String.mk d) = ((decimalValue d : Int), none) := by
  refine ⟨?_, Atoi_digits d hne hd hv⟩
  simp [serviceMangaReaderRegexpChapterName, regexpChapterNameGroup_append pre d hp hd]

theorem get_zero_of_eq_singleton {α : Type} (l : List α) (x : α) (h : 0 < l.length)
    (hl : l = [x]) : l.get ⟨0, h⟩ = x := by
  subst hl
  rfl

/-! ## Identification -/

/-- C1: on a supported URL whose fetch gives a document in which one of the two
markers matches exactly one element and the other none, `Identify` succeeds: with
the manga marker `#chapterlist` it returns a Manga, with the chapter marker
`#pageMenu` a Chapter, in both cases with the URL it was given and the receiving
service. -/
theorem identify_unique_marker (service : MangaReaderService) (u : URL) (log : List URL)
    (doc : Document)
    (hs : service.Supports u = true)
    (hf : service.Md.remote log u = .ok doc)
    (hm : ((doc.Find "#chapterlist").length = 1 ∧ (doc.Find "#pageMenu").length = 0) ∨
      ((doc.Find "#pageMenu").length = 1 ∧ (doc.Find "#chapterlist").length = 0)) :
    (service.Identify u log).1 =
      (some (if (doc.Find "#chapterlist").length = 1
        then Entity.manga { Url := u, Service := .mangaReader service }
        else Entity.chapter { Url := u, Service := .mangaReader service }), none) := by
  unfold MangaReaderService.Identify MangaDownloader.HttpGetHtmlDoc
  simp only [hs, hf, serviceMangaReaderHtmlSelectorIdentifyManga,
    serviceMangaReaderHtmlSelectorIdentifyChapter]
  rcases hm with ⟨h1, _⟩ | ⟨h1, h2⟩
  · simp [h1]
  · simp [h1, h2]

/-- C1, on the sample site: the manga page is identified as a Manga and the chapter
page as a Chapter. -/
theorem identify_unique_marker_witness :
    (Sample.service.Supports (Sample.url "/123-manga") = true ∧
      (Sample.mangaDoc.Find "#chapterlist").length = 1 ∧
      (Sample.mangaDoc.Find "#pageMenu").length = 0 ∧
      (Sample.service.Identify (Sample.url "/123-manga") []).1 =
        (some (Entity.manga
          { Url := Sample.url "/123-manga", Service := .mangaReader Sample.service }), none)) ∧
    (Sample.service.Supports (Sample.url "/123-manga/chapter-7") = true ∧
      (Sample.chapterDoc.Find "#pageMenu").length = 1 ∧
      (Sample.chapterDoc.Find "#chapterlist").length = 0 ∧
      (Sample.service.Identify (Sample.url "/123-manga/chapter-7") []).1 =
        (some (Entity.chapter
          { Url := Sample.url "/123-manga/chapter-7",
            Service := .mangaReader Sample.service }), none)) :=
  ⟨⟨by decide, by decide, by decide,
    identify_unique_marker Sample.service (Sample.url "/123-manga") [] Sample.mangaDoc
      (by decide) rfl (Or.inl ⟨by decide, by decide⟩)⟩,
   ⟨by decide, by decide, by decide,
    identify_unique_marker Sample.service (Sample.url "/123-manga/chapter-7") []
      Sample.chapterDoc (by decide) rfl (Or.inr ⟨by decide, by decide⟩)⟩⟩

/-- C2, as stated, fails: a supported URL and a fetched document in which both
markers are present, for which `Identify` returns a Manga and no error. -/
theorem identify_both_markers_is_manga :
    ¬ ∀ (service : MangaReaderService) (u : URL) (log : List URL) (doc : Document),
      service.Supports u = true →
      service.Md.remote log u = .ok doc →
      ((1 ≤ (doc.Find "#chapterlist").length ∧ 1 ≤ (doc.Find "#pageMenu").length) ∨
        ((doc.Find "#chapterlist").length = 0 ∧ (doc.Find "#pageMenu").length = 0)) →
      (service.Identify u log).1.1.isNone = true ∧
        (service.Identify u log).1.2.isSome = true := by
  intro h
  have h1 := h Sample.service (Sample.url "/both") [] Sample.bothDoc (by decide) rfl
    (Or.inl ⟨by decide, by decide⟩)
  exact absurd h1.1 (by decide)

/-- C2, amended: on a supported URL whose fetch gives a document in which neither
marker matches exactly one element (in particular one in which neither marker is
present), `Identify` returns the error `Unknown url`, and no entity. -/
theorem identify_no_unique_marker (service : MangaReaderService) (u : URL) (log : List URL)
    (doc : Document)
    (hs : service.Supports u = true)
    (hf : service.Md.remote log u = .ok doc)
    (hm : (doc.Find "#chapterlist").length ≠ 1)
    (hc : (doc.Find "#pageMenu").length ≠ 1) :
    (service.Identify u log).1 = (none, some (.errorsNew "Unknown url")) := by
  unfold MangaReaderService.Identify MangaDownloader.HttpGetHtmlDoc
  simp [hs, hf, hm, hc, serviceMangaReaderHtmlSelectorIdentifyManga,
    serviceMangaReaderHtmlSelectorIdentifyChapter]

/-- C2, amended, on the sample site: a page with neither marker is not identified. -/
theorem identify_no_unique_marker_witness :
    Sample.service.Supports (Sample.url "/empty") = true ∧
    (Sample.emptyDoc.Find "#chapterlist").length ≠ 1 ∧
    (Sample.emptyDoc.Find "#pageMenu").length ≠ 1 ∧
    (Sample.service.Identify (Sample.url "/empty") []).1 =
      (none, some (.errorsNew "Unknown url")) :=
  ⟨by decide, by decide, by decide,
    identify_no_unique_marker Sample.service (Sample.url "/empty") [] Sample.emptyDoc
      (by decide) rfl (by decide) (by decide)⟩

/-! ## Support detection -/

/-- C3: `Supports` is a total function of the host alone: it is true exactly when
the host is one of the strings `www.mangareader.net` and `mangareader.net`, false
otherwise, whatever the other fields of the URL are; another subdomain, another
letter case and a host with a port are not supported. -/
theorem supports_iff_host (service : MangaReaderService) (u : URL) :
    (service.Supports u = true ↔
      (u.Host = "www.mangareader.net" ∨ u.Host = "mangareader.net")) ∧
    (service.Supports u = false ↔
      ¬ (u.Host = "www.mangareader.net" ∨ u.Host = "mangareader.net")) ∧
    (∀ (other : MangaReaderService) (scheme opaq : String)
        (user : Option (String × Option String)) (path query fragment : String),
      other.Supports
        { Scheme := scheme
          Opaque := opaq
          User := user
          Host := u.Host
          Path := path
          RawQuery := query
          Fragment := fragment } = service.Supports u) ∧
    service.Supports { u with Host := "m.mangareader.net" } = false ∧
    service.Supports { u with Host := "WWW.MangaReader.net" } = false ∧
    service.Supports { u with Host := "www.mangareader.net:80" } = false := by
  have key : service.Supports u = true ↔
      (u.Host = "www.mangareader.net" ∨ u.Host = "mangareader.net") := by
    simp only [MangaReaderService.Supports, serviceMangaReaderHosts, stringSliceContains]
    constructor
    · intro h
      by_cases h1 : "www.mangareader.net" = u.Host
      · exact Or.inl h1.symm
      · by_cases h2 : "mangareader.net" = u.Host
        · exact Or.inr h2.symm
        · simp [h1, h2] at h
    · rintro (h | h) <;> simp [h]
  refine ⟨key, ?_, ?_, rfl, rfl, rfl⟩
  · rw [← key]; simp
  · intro other scheme opaq user path query fragment
    rfl

/-! ## Unsupported URLs -/

/-- C4: on a URL that `Supports` rejects, `Identify` returns the error
`Not supported` and no entity, whatever the fetcher of the service would answer;
the fetch log is left as it was. -/
theorem identify_not_supported (service : MangaReaderService) (u : URL) (log : List URL)
    (hs : service.Supports u = false) :
    service.Identify u log = ((none, some (.errorsNew "Not supported")), log) := by
  unfold MangaReaderService.Identify
  simp [hs]

/-- C4, on the sample site: the manga page reached through an unsupported host. -/
theorem identify_not_supported_witness :
    Sample.service.Supports { Sample.url "/123-manga" with Host := "example.com" } = false ∧
    Sample.service.Identify { Sample.url "/123-manga" with Host := "example.com" } [] =
      ((none, some (.errorsNew "Not supported")), []) :=
  ⟨by decide, identify_not_supported Sample.service _ [] (by decide)⟩

/-! ## Manga name -/

/-- C5: when the fetched manga document has no element, or more than one element,
matching `h2.aname`, `MangaName` returns the empty string and the error
`Name node not found`. -/
theorem mangaName_not_single (service : MangaReaderService) (manga : Manga)
    (log : List URL) (doc : Document)
    (hf : service.Md.remote log manga.Url = .ok doc)
    (hn : (doc.Find "h2.aname").length ≠ 1) :
    (service.MangaName manga log).1 = ("", some (.errorsNew "Name node not found")) := by
  unfold MangaReaderService.MangaName MangaDownloader.HttpGetHtmlDoc
  simp only [hf, serviceMangaReaderHtmlSelectorMangaName]
  rw [dif_pos hn]

/-- C5, on the sample site: with two name headings the result is the error, not the
text `Naruto` of the first one. -/
theorem mangaName_not_single_witness :
    (Sample.twoNamesDoc.Find "h2.aname").length = 2 ∧
    ((Sample.twoNamesDoc.Find "h2.aname").head?.bind Node.FirstChild).map Node.Data =
      some "Naruto" ∧
    (Sample.service.MangaName
      { Url := Sample.url "/two-names", Service := .mangaReader Sample.service } []).1 =
      ("", some (.errorsNew "Name node not found")) :=
  ⟨by decide, by decide,
    mangaName_not_single Sample.service
      { Url := Sample.url "/two-names", Service := .mangaReader Sample.service } []
      Sample.twoNamesDoc rfl (by decide)⟩

/-- C6: on the sample page whose single name heading has an element as first child,
`<h2 class="aname"><b>Naruto</b></h2>`, `MangaName` returns no error but the tag
name `b` of that child, which is not text of the heading. -/
theorem mangaName_element_first_child :
    (Sample.boldNameDoc.Find "h2.aname").length = 1 ∧
    ((Sample.boldNameDoc.Find "h2.aname").head?.bind Node.FirstChild).map Node.Typ =
      some NodeType.ElementNode ∧
    (Sample.service.MangaName
      { Url := Sample.url "/bold-name", Service := .mangaReader Sample.service } []).1 =
      ("b", none) :=
  ⟨by decide, by decide, by decide⟩

/-! ## Chapters of a manga -/

/-- C7: when the fetch of the manga document succeeds, `MangaChapters` succeeds and
returns one Chapter per element matching `#chapterlist a`, in document order: the
Nth Chapter has as path the `href` attribute of the Nth link element; the result is
as long as the list of links, hence empty, with no error, when there is no link. -/
theorem mangaChapters_document_order (service : MangaReaderService) (manga : Manga)
    (log : List URL) (doc : Document)
    (hf : service.Md.remote log manga.Url = .ok doc) :
    ∃ chapters : List Chapter,
      (service.MangaChapters manga log).1 = (some chapters, none) ∧
      chapters.length = (doc.Find "#chapterlist a").length ∧
      (∀ N : Nat, chapters[N]?.map (fun c => c.Url.Path) =
        (doc.Find "#chapterlist a")[N]?.map (fun linkNode =>
          htmlGetNodeAttribute linkNode "href")) ∧
      (chapters = [] ↔ doc.Find "#chapterlist a" = []) := by
  refine ⟨(doc.Find "#chapterlist a").map (fun linkNode =>
    { Url := { urlCopy serviceMangaReaderUrlBase with
        Path := htmlGetNodeAttribute linkNode "href" },
      Service := .mangaReader service }), ?_, by simp, ?_, by simp⟩
  · unfold MangaReaderService.MangaChapters MangaDownloader.HttpGetHtmlDoc
    simp only [hf, serviceMangaReaderHtmlSelectorMangaChapters]
    rw [foldl_append_singleton_eq_map]
    rfl
  · intro N
    rw [List.getElem?_map, Option.map_map]
    rfl

/-- C7, on the sample site: the two links of the manga page give two chapters, in
the order of the links; a page without link gives the empty sequence. -/
theorem mangaChapters_document_order_witness :
    (∃ chapters : List Chapter,
      (Sample.service.MangaChapters
        { Url := Sample.url "/123-manga", Service := .mangaReader Sample.service } []).1 =
        (some chapters, none) ∧
      chapters.length = (Sample.mangaDoc.Find "#chapterlist a").length ∧
      (∀ N : Nat, chapters[N]?.map (fun c => c.Url.Path) =
        (Sample.mangaDoc.Find "#chapterlist a")[N]?.map (fun linkNode =>
          htmlGetNodeAttribute linkNode "href")) ∧
      (chapters = [] ↔ Sample.mangaDoc.Find "#chapterlist a" = [])) ∧
    ((Sample.service.MangaChapters
        { Url := Sample.url "/123-manga", Service := .mangaReader Sample.service }
        []).1.1.map (List.map (fun c => c.Url.Path)) =
      some ["/123-manga/chapter-7", "/123-manga/chapter-8"]) ∧
    ((Sample.service.MangaChapters
        { Url := Sample.url "/empty", Service := .mangaReader Sample.service }
        []).1.1.map List.length = some 0) :=
  ⟨mangaChapters_document_order Sample.service
      { Url := Sample.url "/123-manga", Service := .mangaReader Sample.service } []
      Sample.mangaDoc rfl,
    by decide, by decide⟩

/-! ## Resolution against the base origin -/

/-- C8: every Chapter that `MangaChapters` returns and every Page that
`ChapterPages` returns comes from a fetched document and has as locator the scheme
`http`, the host `www.mangareader.net`, whatever the URL that was fetched, and as
path the attribute (`href`, `value`) of one of the matching elements, unchanged,
the other fields of the locator being empty. -/
theorem resolved_on_base_origin (service : MangaReaderService) (manga : Manga)
    (chapter : Chapter) (logM logC : List URL) (chapters : List Chapter) (pages : List Page)
    (hc : (service.MangaChapters manga logM).1.1 = some chapters)
    (hp : (service.ChapterPages chapter logC).1.1 = some pages) :
    (∃ doc : Document, service.Md.remote logM manga.Url = .ok doc ∧
      ∀ c ∈ chapters, ∃ linkNode ∈ doc.Find "#chapterlist a",
        c.Url = { Scheme := "http", Host := "www.mangareader.net",
                  Path := htmlGetNodeAttribute linkNode "href" }) ∧
    (∃ doc : Document, service.Md.remote logC chapter.Url = .ok doc ∧
      ∀ p ∈ pages, ∃ optionNode ∈ doc.Find "#pageMenu option",
        p.Url = { Scheme := "http", Host := "www.mangareader.net",
                  Path := htmlGetNodeAttribute optionNode "value" }) := by
  constructor
  · unfold MangaReaderService.MangaChapters MangaDownloader.HttpGetHtmlDoc at hc
    cases hf : service.Md.remote logM manga.Url with
    | error e => simp [hf] at hc
    | ok doc =>
      refine ⟨doc, rfl, ?_⟩
      simp only [hf, serviceMangaReaderHtmlSelectorMangaChapters, Option.some.injEq] at hc
      rw [foldl_append_singleton_eq_map] at hc
      subst hc
      intro c hmem
      simp only [List.nil_append, List.mem_map] at hmem
      obtain ⟨linkNode, hl, rfl⟩ := hmem
      exact ⟨linkNode, hl, rfl⟩
  · unfold MangaReaderService.ChapterPages MangaDownloader.HttpGetHtmlDoc at hp
    cases hf : service.Md.remote logC chapter.Url with
    | error e => simp [hf] at hp
    | ok doc =>
      refine ⟨doc, rfl, ?_⟩
      simp only [hf, serviceMangaReaderHtmlSelectorChapterPages, Option.some.injEq] at hp
      rw [foldl_append_singleton_eq_map] at hp
      subst hp
      intro p hmem
      simp only [List.nil_append, List.mem_map] at hmem
      obtain ⟨optionNode, hl, rfl⟩ := hmem
      exact ⟨optionNode, hl, rfl⟩

/-- C8, on the sample site, reached through the host `mangareader.net`: the link
`/123-manga/chapter-7` gives exactly the locator
`http://www.mangareader.net/123-manga/chapter-7`, and so does the page option. -/
theorem resolved_on_base_origin_witness :
    (Sample.url "/123-manga").Host = "mangareader.net" ∧
    ((Sample.service.MangaChapters
        { Url := Sample.url "/123-manga", Service := .mangaReader Sample.service }
        []).1.1.map (List.map Chapter.Url) =
      some [{ Scheme := "http", Host := "www.mangareader.net", Path := "/123-manga/chapter-7" },
            { Scheme := "http", Host := "www.mangareader.net",
              Path := "/123-manga/chapter-8" }]) ∧
    ((Sample.service.ChapterPages
        { Url := Sample.url "/123-manga/chapter-7", Service := .mangaReader Sample.service }
        []).1.1.map (List.map Page.Url) =
      some [{ Scheme := "http", Host := "www.mangareader.net", Path := "/123-manga/chapter-7" },
            { Scheme := "http", Host := "www.mangareader.net",
              Path := "/123-manga/chapter-7/2" }]) ∧
    ((∃ doc : Document, Sample.service.Md.remote [] (Sample.url "/123-manga") = .ok doc ∧
      ∀ c ∈ [({ Url := { Scheme := "http", Host := "www.mangareader.net",
                         Path := "/123-manga/chapter-7" },
                Service := .mangaReader Sample.service } : Chapter),
             { Url := { Scheme := "http", Host := "www.mangareader.net",
                        Path := "/123-manga/chapter-8" },
               Service := .mangaReader Sample.service }],
        ∃ linkNode ∈ doc.Find "#chapterlist a",
          c.Url = { Scheme := "http", Host := "www.mangareader.net",
                    Path := htmlGetNodeAttribute linkNode "href" }) ∧
    (∃ doc : Document,
      Sample.service.Md.remote [] (Sample.url "/123-manga/chapter-7") = .ok doc ∧
      ∀ p ∈ [({ Url := { Scheme := "http", Host := "www.mangareader.net",
                         Path := "/123-manga/chapter-7" },
                Service := .mangaReader Sample.service } : Page),
             { Url := { Scheme := "http", Host := "www.mangareader.net",
                        Path := "/123-manga/chapter-7/2" },
               Service := .mangaReader Sample.service }],
        ∃ optionNode ∈ doc.Find "#pageMenu option",
          p.Url = { Scheme := "http", Host := "www.mangareader.net",
                    Path := htmlGetNodeAttribute optionNode "value" })) :=
  ⟨by decide, by decide, by decide,
    resolved_on_base_origin Sample.service
      { Url := Sample.url "/123-manga", Service := .mangaReader Sample.service }
      { Url := Sample.url "/123-manga/chapter-7", Service := .mangaReader Sample.service }
      [] [] _ _ rfl rfl⟩

/-! ## Pages of a chapter -/

/-- C9: when the fetch of the chapter document succeeds, `ChapterPages` succeeds and
returns one Page per element matching `#pageMenu option`, in document order: the Nth
Page has as path the `value` attribute of the Nth option element, and every Page
has the receiving service; the result is as long as the list of options, hence
empty, with no error, when there is no option. -/
theorem chapterPages_document_order (service : MangaReaderService) (chapter : Chapter)
    (log : List URL) (doc : Document)
    (hf : service.Md.remote log chapter.Url = .ok doc) :
    ∃ pages : List Page,
      (service.ChapterPages chapter log).1 = (some pages, none) ∧
      pages.length = (doc.Find "#pageMenu option").length ∧
      (∀ N : Nat, pages[N]?.map (fun p => p.Url.Path) =
        (doc.Find "#pageMenu option")[N]?.map (fun optionNode =>
          htmlGetNodeAttribute optionNode "value")) ∧
      (∀ p ∈ pages, p.Service = .mangaReader service) ∧
      (pages = [] ↔ doc.Find "#pageMenu option" = []) := by
  refine ⟨(doc.Find "#pageMenu option").map (fun optionNode =>
    { Url := { urlCopy serviceMangaReaderUrlBase with
        Path := htmlGetNodeAttribute optionNode "value" },
      Service := .mangaReader service }), ?_, by simp, ?_, ?_, by simp⟩
  · unfold MangaReaderService.ChapterPages MangaDownloader.HttpGetHtmlDoc
    simp only [hf, serviceMangaReaderHtmlSelectorChapterPages]
    rw [foldl_append_singleton_eq_map]
    rfl
  · intro N
    rw [List.getElem?_map, Option.map_map]
    rfl
  · intro p hmem
    simp only [List.mem_map] at hmem
    obtain ⟨optionNode, _, rfl⟩ := hmem
    rfl

/-- C9, on the sample site: the two options of the chapter page give two pages, in
the order of the options; a page without option gives the empty sequence. -/
theorem chapterPages_document_order_witness :
    (∃ pages : List Page,
      (Sample.service.ChapterPages
        { Url := Sample.url "/123-manga/chapter-7", Service := .mangaReader Sample.service }
        []).1 = (some pages, none) ∧
      pages.length = (Sample.chapterDoc.Find "#pageMenu option").length ∧
      (∀ N : Nat, pages[N]?.map (fun p => p.Url.Path) =
        (Sample.chapterDoc.Find "#pageMenu option")[N]?.map (fun optionNode =>
          htmlGetNodeAttribute optionNode "value")) ∧
      (∀ p ∈ pages, p.Service = .mangaReader Sample.service) ∧
      (pages = [] ↔ Sample.chapterDoc.Find "#pageMenu option" = [])) ∧
    ((Sample.service.ChapterPages
        { Url := Sample.url "/123-manga/chapter-7", Service := .mangaReader Sample.service }
        []).1.1.map (List.map (fun p => p.Url.Path)) =
      some ["/123-manga/chapter-7", "/123-manga/chapter-7/2"]) ∧
    ((Sample.service.ChapterPages
        { Url := Sample.url "/empty", Service := .mangaReader Sample.service }
        []).1.1.map List.length = some 0) :=
  ⟨chapterPages_document_order Sample.service
      { Url := Sample.url "/123-manga/chapter-7", Service := .mangaReader Sample.service } []
      Sample.chapterDoc rfl,
    by decide, by decide⟩

/-! ## Chapter name -/

/-- C10, as stated, fails: the display text `Naruto\nChapter 7` ends in a space and
the integer token 7, and `ChapterName` fails with the format error, the dot of the
pattern not matching the line feed; the display text `Naruto 9223372036854775808`
also ends in an integer token and `ChapterName` fails with the range error of the
integer parse. -/
theorem chapterName_line_feed_or_overflow :
    (¬ ∀ (service : MangaReaderService) (chapter : Chapter) (log : List URL)
        (doc : Document) (nameNode textNode : Node) (pre : String) (k : Nat),
      service.Md.remote log chapter.Url = .ok doc →
      doc.Find "#mangainfo h1" = [nameNode] →
      nameNode.FirstChild = some textNode →
      textNode.Data = pre ++ " " ++ Nat.repr k →
      (service.ChapterName chapter log).1 = (zeroPadded 4 k, none)) ∧
    (Sample.service.ChapterName
      { Url := Sample.url "/line-feed", Service := .mangaReader Sample.service } []).1 =
      ("", some (.errorsNew "Invalid name format")) ∧
    (Sample.service.ChapterName
      { Url := Sample.url "/huge", Service := .mangaReader Sample.service } []).1 =
      ("", some (.numError "Atoi" "9223372036854775808" "value out of range")) := by
  refine ⟨?_, by decide, by decide⟩
  intro h
  have h1 := h Sample.service
    { Url := Sample.url "/line-feed", Service := .mangaReader Sample.service } []
    (Sample.namedChapterDoc "Naruto\nChapter 7")
    (Sample.elem "h1" [] [Sample.text "Naruto\nChapter 7"])
    (Sample.text "Naruto\nChapter 7") "Naruto\nChapter" 7 rfl rfl rfl (by decide)
  exact absurd h1 (by decide)

/-- C10, amended: when the single `#mangainfo h1` element of the fetched chapter
document has as display text a part without line feed, a space and the decimal
digits of an integer `k` that fits the platform integer (`k < 2 ^ 63`),
`ChapterName` succeeds and returns the decimal representation of `k` left-padded
with zeros to width 4. -/
theorem chapterName_integer_token (service : MangaReaderService) (chapter : Chapter)
    (log : List URL) (doc : Document) (nameNode textNode : Node) (pre : String) (k : Nat)
    (hf : service.Md.remote log chapter.Url = .ok doc)
    (hn : doc.Find "#mangainfo h1" = [nameNode])
    (hc : nameNode.FirstChild = some textNode)
    (ht : textNode.Data = pre ++ " " ++ Nat.repr k)
    (hp : '\n' ∉ pre.data)
    (hk : k < 2 ^ 63) :
    (service.ChapterName chapter log).1 = (zeroPadded 4 k, none) := by
  obtain ⟨hd, hne, hv⟩ := toDigits_decimal k
  have htext : textNode.Data = String.mk (pre.data ++ ' ' :: Nat.toDigits 10 k) := by
    rw [ht]
    apply String.ext
    simp only [String.data_append, Nat.repr, List.asString, List.append_assoc]
    rfl
  obtain ⟨hre, hatoi⟩ := chapterName_transform pre.data (Nat.toDigits 10 k) hp hne hd
    (by rw [hv]; exact hk)
  rw [hv] at hatoi
  unfold MangaReaderService.ChapterName MangaDownloader.HttpGetHtmlDoc
  simp only [hf, serviceMangaReaderHtmlSelectorChapterName]
  have hlen : ¬ (doc.Find "#mangainfo h1").length ≠ 1 := by simp [hn]
  rw [dif_neg hlen]
  rw [get_zero_of_eq_singleton (doc.Find "#mangainfo h1") nameNode _ hn]
  simp only [hc, htext, hre, List.getD_cons_succ, List.getD_cons_zero, hatoi]
  have hk0 : ¬ ((k : Int) < 0) := by omega
  simp only [serviceMangaReaderFormatChapter, sprintfZeroPadded, zeroPadded,
    serviceMangaReaderChapterDigitCount, Nat.repr, Int.natAbs_ofNat, hk0, if_false]
  rfl

/-- C10, amended, on the sample site: the text `Naruto 7` gives `0007` and the text
`Naruto 123` gives `0123`. -/
theorem chapterName_integer_token_witness :
    ((Sample.chapterDoc.Find "#mangainfo h1").map
        (fun nameNode => nameNode.FirstChild.map Node.Data) = [some ("Naruto" ++ " " ++ Nat.repr 7)] ∧
      '\n' ∉ "Naruto".data ∧ 7 < 2 ^ 63 ∧
      (Sample.service.ChapterName
        { Url := Sample.url "/123-manga/chapter-7", Service := .mangaReader Sample.service }
        []).1 = (zeroPadded 4 7, none) ∧ zeroPadded 4 7 = "0007") ∧
    ((Sample.service.ChapterName
        { Url := Sample.url "/123", Service := .mangaReader Sample.service }
        []).1 = (zeroPadded 4 123, none) ∧ zeroPadded 4 123 = "0123") :=
  ⟨⟨by decide, by decide, by decide,
    chapterName_integer_token Sample.service
      { Url := Sample.url "/123-manga/chapter-7", Service := .mangaReader Sample.service } []
      Sample.chapterDoc (Sample.elem "h1" [] [Sample.text "Naruto 7"]) (Sample.text "Naruto 7")
      "Naruto" 7 rfl rfl rfl (by decide) (by decide) (by decide),
    by decide⟩,
   ⟨chapterName_integer_token Sample.service
      { Url := Sample.url "/123", Service := .mangaReader Sample.service } []
      (Sample.namedChapterDoc "Naruto 123") (Sample.elem "h1" [] [Sample.text "Naruto 123"])
      (Sample.text "Naruto 123") "Naruto" 123 rfl rfl rfl (by decide) (by decide) (by decide),
    by decide⟩⟩


/-! ## Further lemmas on the chapter-name transform -/

theorem regexpChapterNameGroup_some (s g : List Char)
    (h : regexpChapterNameGroup s = some g) :
    ∃ pre : List Char, s = pre ++ ' ' :: g ∧ g.all Char.isDigit = true ∧ '\n' ∉ pre := by
  induction s with
  | nil => simp [regexpChapterNameGroup] at h
  | cons c cs ih =>
    unfold regexpChapterNameGroup at h
    by_cases hc : c = '\n'
    · subst hc
      simp only [ne_eq, not_true_eq_false, if_false] at h
      split at h
      · obtain ⟨h1, h2⟩ := ‹_ ∧ _›
        exact absurd h1 (by decide)
      · exact absurd h (by simp)
    · simp only [ne_eq, hc, not_false_eq_true, if_true] at h
      cases hrec : regexpChapterNameGroup cs with
      | some g1 =>
        rw [hrec] at h
        simp only [Option.some.injEq] at h
        subst h
        obtain ⟨pre, h1, h2, h3⟩ := ih hrec
        refine ⟨c :: pre, by rw [h1]; rfl, h2, ?_⟩
        simp only [List.mem_cons, not_or]
        exact ⟨fun h => hc h.symm, h3⟩
      | none =>
        rw [hrec] at h
        simp only at h
        split at h
        · rename_i hsp
          simp only [Option.some.injEq] at h
          subst h
          refine ⟨[], by rw [hsp.1]; rfl, hsp.2, by simp⟩
        · exact absurd h (by simp)

theorem digits_no_space (d : List Char) (hd : d.all Char.isDigit = true) : ' ' ∉ d := by
  intro hmem
  have := (List.all_eq_true.mp hd) ' ' hmem
  exact absurd this (by decide)

theorem split_last_space_unique (pre1 pre2 g1 g2 : List Char)
    (h : pre1 ++ ' ' :: g1 = pre2 ++ ' ' :: g2) (h1 : ' ' ∉ g1) (h2 : ' ' ∉ g2) :
    g1 = g2 := by
  induction pre1 generalizing pre2 with
  | nil =>
    cases pre2 with
    | nil => simpa using h
    | cons c cs =>
      simp only [List.nil_append, List.cons_append, List.cons.injEq] at h
      exact absurd (h.2 ▸ (by simp : ' ' ∈ cs ++ ' ' :: g2)) h1
  | cons c cs ih =>
    cases pre2 with
    | nil =>
      simp only [List.nil_append, List.cons_append, List.cons.injEq] at h
      exact absurd (h.2 ▸ (by simp : ' ' ∈ cs ++ ' ' :: g1)) h2
    | cons c2 cs2 =>
      simp only [List.cons_append, List.cons.injEq] at h
      exact ih cs2 h.2

theorem parseUintLoop_digits_overflow (d : List Char) (n : Nat)
    (hd : d.all Char.isDigit = true) (hn : n < 2 ^ 64)
    (hv : 2 ^ 64 ≤ d.foldl (fun n c => n * 10 + (c.toNat - '0'.toNat)) n) :
    parseUintLoop d n = .error ErrRange := by
  induction d generalizing n with
  | nil => simp only [List.foldl_nil] at hv; omega
  | cons c cs ih =>
    simp only [List.all_cons, Bool.and_eq_true] at hd
    simp only [List.foldl_cons] at hv
    simp only [parseUintLoop, hd.1, Bool.not_true, Bool.false_eq_true, if_false]
    by_cases hcut : n ≥ (2 ^ 64 - 1) / 10 + 1
    · rw [if_pos hcut]
    · rw [if_neg hcut]
      have h10 : n * 10 % 2 ^ 64 = n * 10 := Nat.mod_eq_of_lt (by omega)
      simp only [h10]
      by_cases hlt : n * 10 + (c.toNat - '0'.toNat) < 2 ^ 64
      · have h1 : (n * 10 + (c.toNat - '0'.toNat)) % 2 ^ 64 = n * 10 + (c.toNat - '0'.toNat) :=
          Nat.mod_eq_of_lt hlt
        simp only [h1]
        rw [if_neg (by omega)]
        exact ih _ hd.2 hlt hv
      · have hdig : c.toNat - '0'.toNat ≤ 9 := by
          have := hd.1
          simp only [Char.isDigit, Bool.and_eq_true, decide_eq_true_eq] at this
          have h2 : c.val ≤ 57 := this.2
          have h3 : c.toNat ≤ 57 := h2
          have h0 : '0'.toNat = 48 := rfl
          omega
        have h1 : (n * 10 + (c.toNat - '0'.toNat)) % 2 ^ 64 =
            n * 10 + (c.toNat - '0'.toNat) - 2 ^ 64 := by
          rw [Nat.mod_eq_sub_mod (by omega), Nat.mod_eq_of_lt (by omega)]
        simp only [h1]
        rw [if_pos (Or.inl (by omega))]

theorem Atoi_digits_empty : Atoi "" = (0, some (.numError "Atoi" "" ErrSyntax)) := by
  decide

theorem Atoi_digits_overflow (d : List Char) (hd : d.all Char.isDigit = true)
    (hv : 2 ^ 63 ≤ decimalValue d) :
    Atoi (String.mk d) =
      (2 ^ 63 - 1, some (.numError "Atoi" (String.mk d) ErrRange)) := by
  have hne : d ≠ [] := by
    rintro rfl
    simp [decimalValue] at hv
  obtain ⟨hplus, hminus⟩ := head_digit_not_sign d hd
  unfold Atoi
  simp only [hne, hplus, hminus, if_false, or_self, intSize]
  by_cases hbig : decimalValue d < 2 ^ 64
  · rw [ParseUint_digits d hne hd hbig]
    have hv2 : decimalValue d ≥ 2 ^ 63 := hv
    simp only [Option.isSome_none, Bool.false_eq_true, false_and, if_false, hv2, and_true,
      Bool.not_false, decide_False, if_true]
    norm_num
  · have hloop := parseUintLoop_digits_overflow d 0 hd (by norm_num) (by
      simp only [decimalValue] at hbig; omega)
    have hp : ParseUint d = (2 ^ 64 - 1, some ErrRange) := by
      unfold ParseUint
      rw [if_neg hne, hloop]
      rfl
    rw [hp]
    simp only [Option.isSome_some, ne_eq, not_true_eq_false, and_false, if_false,
      Bool.not_false, decide_False]
    norm_num

theorem formatChapter_natCast (k : Nat) :
    serviceMangaReaderFormatChapter (k : Int) = zeroPadded 4 k := by
  have hk0 : ¬ ((k : Int) < 0) := by omega
  simp only [serviceMangaReaderFormatChapter, sprintfZeroPadded, zeroPadded,
    serviceMangaReaderChapterDigitCount, Nat.repr, Int.natAbs_ofNat, hk0, if_false]
  rfl

theorem regexpChapterName_eq (name : String) :
    serviceMangaReaderRegexpChapterName name =
      (regexpChapterNameGroup name.data).map (fun g => [name, String.mk g]) := by
  unfold serviceMangaReaderRegexpChapterName
  cases regexpChapterNameGroup name.data <;> rfl

/-- The result of `ChapterName` as a function of the text of the single name node. -/
theorem chapterName_of_text (service : MangaReaderService) (chapter : Chapter)
    (log : List URL) (doc : Document) (nameNode textNode : Node)
    (hf : service.Md.remote log chapter.Url = .ok doc)
    (hn : doc.Find "#mangainfo h1" = [nameNode])
    (hc : nameNode.FirstChild = some textNode) :
    (service.ChapterName chapter log).1 =
      match regexpChapterNameGroup textNode.Data.data with
      | none => ("", some (.errorsNew "Invalid name format"))
      | some g =>
        match Atoi (String.mk g) with
        | (_, some err) => ("", some err)
        | (nameInt, none) => (serviceMangaReaderFormatChapter nameInt, none) := by
  unfold MangaReaderService.ChapterName MangaDownloader.HttpGetHtmlDoc
  simp only [hf, serviceMangaReaderHtmlSelectorChapterName]
  have hlen : ¬ (doc.Find "#mangainfo h1").length ≠ 1 := by simp [hn]
  rw [dif_neg hlen, get_zero_of_eq_singleton (doc.Find "#mangainfo h1") nameNode _ hn]
  simp only [hc, regexpChapterName_eq]
  cases hg : regexpChapterNameGroup textNode.Data.data with
  | none => rfl
  | some g =>
    simp only [Option.map_some', List.getD_cons_succ, List.getD_cons_zero]
    cases hat : Atoi (String.mk g) with
    | mk nameInt err =>
      cases err <;> rfl

/-- A successful `ChapterName` has fetched a document with a single name node that
has a first child. -/
theorem chapterName_success_inv (service : MangaReaderService) (chapter : Chapter)
    (log : List URL) (name : String)
    (h : (service.ChapterName chapter log).1 = (name, none)) :
    ∃ (doc : Document) (nameNode textNode : Node),
      service.Md.remote log chapter.Url = .ok doc ∧
      doc.Find "#mangainfo h1" = [nameNode] ∧ nameNode.FirstChild = some textNode := by
  unfold MangaReaderService.ChapterName MangaDownloader.HttpGetHtmlDoc at h
  cases hf : service.Md.remote log chapter.Url with
  | error e => simp [hf] at h
  | ok doc =>
    simp only [hf, serviceMangaReaderHtmlSelectorChapterName] at h
    by_cases hlen : (doc.Find "#mangainfo h1").length ≠ 1
    · rw [dif_pos hlen] at h
      simp at h
    · rw [dif_neg hlen] at h
      have hlen1 : (doc.Find "#mangainfo h1").length = 1 := by omega
      obtain ⟨nameNode, hn⟩ := List.length_eq_one.mp hlen1
      rw [get_zero_of_eq_singleton (doc.Find "#mangainfo h1") nameNode _ hn] at h
      cases hc : nameNode.FirstChild with
      | none => simp [hc] at h
      | some textNode => exact ⟨doc, nameNode, textNode, rfl, hn, hc⟩

/-- A successful `ChapterName` has read a text made of a part without line feed, a
space and a non-empty string of decimal digits whose value fits the platform
integer, and returns that value padded to four digits. -/
theorem chapterName_success_token (service : MangaReaderService) (chapter : Chapter)
    (log : List URL) (name : String)
    (h : (service.ChapterName chapter log).1 = (name, none)) :
    ∃ (doc : Document) (nameNode textNode : Node) (pre d : List Char),
      service.Md.remote log chapter.Url = .ok doc ∧
      doc.Find "#mangainfo h1" = [nameNode] ∧ nameNode.FirstChild = some textNode ∧
      textNode.Data.data = pre ++ ' ' :: d ∧ '\n' ∉ pre ∧
      d.all Char.isDigit = true ∧ d ≠ [] ∧ decimalValue d < 2 ^ 63 ∧
      name = zeroPadded 4 (decimalValue d) := by
  obtain ⟨doc, nameNode, textNode, hf, hn, hc⟩ := chapterName_success_inv service chapter log name h
  rw [chapterName_of_text service chapter log doc nameNode textNode hf hn hc] at h
  cases hg : regexpChapterNameGroup textNode.Data.data with
  | none => simp [hg] at h
  | some g =>
    obtain ⟨pre, h1, h2, h3⟩ := regexpChapterNameGroup_some _ _ hg
    simp only [hg] at h
    by_cases hne : g = []
    · subst hne
      have : Atoi (String.mk []) = (0, some (.numError "Atoi" "" ErrSyntax)) := Atoi_digits_empty
      simp [this] at h
    · by_cases hv : decimalValue g < 2 ^ 63
      · rw [Atoi_digits g hne h2 hv] at h
        simp only [Prod.mk.injEq, and_true] at h
        refine ⟨doc, nameNode, textNode, pre, g, hf, hn, hc, h1, h3, h2, hne, hv, ?_⟩
        rw [← h, formatChapter_natCast]
      · rw [Atoi_digits_overflow g h2 (by omega)] at h
        simp at h

/-! ## Lemmas on zero-padded numerals and their order -/

theorem zeroPadded_data (w k : Nat) :
    (zeroPadded w k).data =
      List.replicate (w - (Nat.toDigits 10 k).length) '0' ++ Nat.toDigits 10 k := rfl

theorem digit_value_le (c : Char) (hc : c.isDigit = true) :
    48 ≤ c.toNat ∧ c.toNat ≤ 57 := by
  simp only [Char.isDigit, Bool.and_eq_true, decide_eq_true_eq] at hc
  have h1 : (48 : UInt32) ≤ c.val := hc.1
  have h2 : c.val ≤ 57 := hc.2
  exact ⟨h1, h2⟩

theorem foldl_decimal_shift (d : List Char) (n : Nat) :
    d.foldl (fun n c => n * 10 + (c.toNat - '0'.toNat)) n =
      n * 10 ^ d.length + decimalValue d := by
  induction d generalizing n with
  | nil => simp [decimalValue]
  | cons c cs ih =>
    simp only [decimalValue, List.foldl_cons, List.length_cons] at ih ⊢
    rw [ih (n * 10 + (c.toNat - '0'.toNat)), ih (0 * 10 + (c.toNat - '0'.toNat))]
    ring

theorem decimalValue_cons (c : Char) (cs : List Char) :
    decimalValue (c :: cs) = (c.toNat - '0'.toNat) * 10 ^ cs.length + decimalValue cs := by
  have := foldl_decimal_shift cs (0 * 10 + (c.toNat - '0'.toNat))
  simp only [decimalValue, List.foldl_cons] at this ⊢
  rw [this]
  ring

theorem decimalValue_lt_pow (d : List Char) (hd : d.all Char.isDigit = true) :
    decimalValue d < 10 ^ d.length := by
  induction d with
  | nil => simp [decimalValue]
  | cons c cs ih =>
    simp only [List.all_cons, Bool.and_eq_true] at hd
    obtain ⟨h1, h2⟩ := digit_value_le c hd.1
    have h0 : '0'.toNat = 48 := rfl
    have ih1 := ih hd.2
    rw [decimalValue_cons, List.length_cons, pow_succ]
    have hmul : (c.toNat - '0'.toNat) * 10 ^ cs.length ≤ 9 * 10 ^ cs.length :=
      Nat.mul_le_mul_right _ (by omega)
    omega

theorem decimalValue_zeros_append (m : Nat) (d : List Char) :
    decimalValue (List.replicate m '0' ++ d) = decimalValue d := by
  induction m with
  | zero => simp
  | succ m ih =>
    rw [List.replicate_succ, List.cons_append, decimalValue_cons, ih]
    simp

theorem zeroPadded_digits (w k : Nat) : (zeroPadded w k).data.all Char.isDigit = true := by
  rw [zeroPadded_data, List.all_append, (toDigits_decimal k).1]
  simp

theorem zeroPadded_value (w k : Nat) : decimalValue (zeroPadded w k).data = k := by
  rw [zeroPadded_data, decimalValue_zeros_append, (toDigits_decimal k).2.2]

theorem zeroPadded_length_ge (w k : Nat) : w ≤ (zeroPadded w k).data.length := by
  rw [zeroPadded_data, List.length_append, List.length_replicate]
  omega

theorem zeroPadded_length_eq (w k : Nat) (hw : 0 < w) (hk : k < 10 ^ w) :
    (zeroPadded w k).data.length = w := by
  have h := Nat.repr_length k w hw hk
  have h2 : (Nat.repr k).length = (Nat.toDigits 10 k).length := rfl
  rw [zeroPadded_data, List.length_append, List.length_replicate]
  omega

theorem zeroPadded_length_gt (w k : Nat) (hk : 10 ^ w ≤ k) :
    w < (zeroPadded w k).data.length := by
  have h1 := decimalValue_lt_pow _ (toDigits_decimal k).1
  rw [(toDigits_decimal k).2.2] at h1
  have h2 : w < (Nat.toDigits 10 k).length := by
    by_contra hcon
    have : 10 ^ (Nat.toDigits 10 k).length ≤ 10 ^ w :=
      Nat.pow_le_pow_right (by norm_num) (by omega)
    omega
  rw [zeroPadded_data, List.length_append, List.length_replicate]
  omega

theorem digit_lt_iff (x y : Char) (hx : x.isDigit = true) (hy : y.isDigit = true) :
    x < y ↔ x.toNat - '0'.toNat < y.toNat - '0'.toNat := by
  obtain ⟨h1, _⟩ := digit_value_le x hx
  obtain ⟨h3, _⟩ := digit_value_le y hy
  have h0 : '0'.toNat = 48 := rfl
  have : x < y ↔ x.toNat < y.toNat := Iff.rfl
  rw [this]
  omega

/-- On strings of decimal digits of the same length the lexicographic order is the
order of the values. -/
theorem digits_lt_iff (a b : List Char) (hl : a.length = b.length)
    (ha : a.all Char.isDigit = true) (hb : b.all Char.isDigit = true) :
    List.lt a b ↔ decimalValue a < decimalValue b := by
  induction a generalizing b with
  | nil =>
    cases b with
    | nil =>
      constructor
      · intro h
        cases h
      · intro h
        exact absurd h (lt_irrefl _)
    | cons y bs => simp at hl
  | cons x as ih =>
    cases b with
    | nil => simp at hl
    | cons y bs =>
      simp only [List.all_cons, Bool.and_eq_true] at ha hb
      simp only [List.length_cons, add_left_inj] at hl
      have hva := decimalValue_lt_pow as ha.2
      have hvb := decimalValue_lt_pow bs hb.2
      have hxy := digit_lt_iff x y ha.1 hb.1
      have hyx := digit_lt_iff y x hb.1 ha.1
      have ih1 := ih bs hl ha.2 hb.2
      rw [decimalValue_cons, decimalValue_cons, hl]
      rw [hl] at hva
      generalize x.toNat - '0'.toNat = dx at *
      generalize y.toNat - '0'.toNat = dy at *
      generalize decimalValue as = va at *
      generalize decimalValue bs = vb at *
      generalize 10 ^ bs.length = p at *
      constructor
      · intro h
        cases h with
        | head _ _ hlt =>
          have hd : dx + 1 ≤ dy := hxy.mp hlt
          have := Nat.mul_le_mul_right p hd
          rw [Nat.add_mul] at this
          omega
        | tail h1 h2 h3 =>
          have hd : dx = dy := by
            have := mt hxy.mpr h1
            have := mt hyx.mpr h2
            omega
          subst hd
          have := ih1.mp h3
          omega
      · intro h
        by_cases hd : dx < dy
        · exact List.lt.head _ _ (hxy.mpr hd)
        · by_cases hd2 : dy < dx
          · have hd3 : dy + 1 ≤ dx := hd2
            have := Nat.mul_le_mul_right p hd3
            rw [Nat.add_mul] at this
            omega
          · have hd3 : dx = dy := by omega
            subst hd3
            refine List.lt.tail (mt hxy.mp hd) (mt hyx.mp hd2) (ih1.mpr (by omega))

/-- C11: when the display text of the single name element has a non-numeric
trailing token, that is, when it contains no space at all or the part after its
last space contains a character that is not a decimal digit, `ChapterName` fails
with the error `Invalid name format` and returns the empty name. -/
theorem chapterName_non_numeric_token (service : MangaReaderService) (chapter : Chapter)
    (log : List URL) (doc : Document) (nameNode textNode : Node)
    (hf : service.Md.remote log chapter.Url = .ok doc)
    (hn : doc.Find "#mangainfo h1" = [nameNode])
    (hc : nameNode.FirstChild = some textNode)
    (ht : ' ' ∉ textNode.Data.data ∨
      ∃ pre t : List Char, textNode.Data.data = pre ++ ' ' :: t ∧ ' ' ∉ t ∧
        ∃ c ∈ t, c.isDigit = false) :
    (service.ChapterName chapter log).1 = ("", some (.errorsNew "Invalid name format")) := by
  rw [chapterName_of_text service chapter log doc nameNode textNode hf hn hc]
  cases hg : regexpChapterNameGroup textNode.Data.data with
  | none => rfl
  | some g =>
    exfalso
    obtain ⟨pre1, h1, h2, _⟩ := regexpChapterNameGroup_some _ _ hg
    rcases ht with hns | ⟨pre, t, ht1, ht2, c, hc1, hc2⟩
    · exact hns (by rw [h1]; simp)
    · have hgt : g = t :=
        split_last_space_unique pre1 pre g t (h1.symm.trans ht1) (digits_no_space g h2) ht2
      subst hgt
      have := (List.all_eq_true.mp h2) c hc1
      rw [hc2] at this
      exact absurd this (by decide)

/-- C11, on sample chapter pages: the text `Naruto 7b`, whose last token has a
letter, and the text `Naruto7`, without space, both give the format error. -/
theorem chapterName_non_numeric_token_witness :
    (∃ c ∈ "7b".data, c.isDigit = false) ∧ ' ' ∉ "7b".data ∧ ' ' ∉ "Naruto7".data ∧
    ((Sample.chapterService "Naruto 7b").ChapterName (Sample.chapterOf "Naruto 7b") []).1 =
      ("", some (.errorsNew "Invalid name format")) ∧
    ((Sample.chapterService "Naruto7").ChapterName (Sample.chapterOf "Naruto7") []).1 =
      ("", some (.errorsNew "Invalid name format")) :=
  ⟨⟨'b', by decide, by decide⟩, by decide, by decide,
    chapterName_non_numeric_token (Sample.chapterService "Naruto 7b")
      (Sample.chapterOf "Naruto 7b") [] (Sample.namedChapterDoc "Naruto 7b")
      (Sample.elem "h1" [] [Sample.text "Naruto 7b"]) (Sample.text "Naruto 7b") rfl rfl rfl
      (Or.inr ⟨"Naruto".data, "7b".data, rfl, by decide, 'b', by decide, by decide⟩),
    chapterName_non_numeric_token (Sample.chapterService "Naruto7")
      (Sample.chapterOf "Naruto7") [] (Sample.namedChapterDoc "Naruto7")
      (Sample.elem "h1" [] [Sample.text "Naruto7"]) (Sample.text "Naruto7") rfl rfl rfl
      (Or.inl (by decide))⟩

/-- C12, as stated, fails: the display text `Naruto 12345` gives the name `12345`,
of five characters. -/
theorem chapterName_five_digits :
    ¬ ∀ (service : MangaReaderService) (chapter : Chapter) (log : List URL) (name : String),
      (service.ChapterName chapter log).1 = (name, none) →
      name.length = 4 ∧ name.data.all Char.isDigit = true := by
  intro h
  have h1 := h (Sample.chapterService "Naruto 12345") (Sample.chapterOf "Naruto 12345") []
    "12345" (by decide)
  exact absurd h1.1 (by decide)

/-- C12, amended: every name that `ChapterName` returns successfully consists of
decimal digits only and has at least 4 characters; it comes from a display text
that ends in a space and a string of decimal digits, and it has exactly 4
characters exactly when the value of that string is below 10000. -/
theorem chapterName_width (service : MangaReaderService) (chapter : Chapter)
    (log : List URL) (name : String)
    (h : (service.ChapterName chapter log).1 = (name, none)) :
    name.data.all Char.isDigit = true ∧
    serviceMangaReaderChapterDigitCount ≤ name.length ∧
    ∃ (doc : Document) (nameNode textNode : Node) (pre d : List Char),
      service.Md.remote log chapter.Url = .ok doc ∧
      doc.Find "#mangainfo h1" = [nameNode] ∧ nameNode.FirstChild = some textNode ∧
      textNode.Data.data = pre ++ ' ' :: d ∧ d.all Char.isDigit = true ∧
      (name.length = serviceMangaReaderChapterDigitCount ↔ decimalValue d < 10000) := by
  obtain ⟨doc, nameNode, textNode, pre, d, hf, hn, hc, ht, _, hd, _, _, rfl⟩ :=
    chapterName_success_token service chapter log name h
  have hlen : ∀ s : String, s.length = s.data.length := fun s => rfl
  refine ⟨zeroPadded_digits _ _, ?_, doc, nameNode, textNode, pre, d, hf, hn, hc, ht, hd, ?_⟩
  · rw [hlen]
    exact zeroPadded_length_ge 4 _
  · rw [hlen]
    constructor
    · intro h4
      by_contra hk
      have := zeroPadded_length_gt 4 (decimalValue d) (by norm_num; omega)
      simp only [serviceMangaReaderChapterDigitCount] at h4
      omega
    · intro hk
      exact zeroPadded_length_eq 4 _ (by norm_num) (by norm_num; exact hk)

/-- C12, amended, on sample chapter pages: `Naruto 7` gives the four digits `0007`. -/
theorem chapterName_width_witness :
    ((Sample.chapterService "Naruto 7").ChapterName (Sample.chapterOf "Naruto 7") []).1 =
      ("0007", none) ∧
    ("0007".data.all Char.isDigit = true ∧
    serviceMangaReaderChapterDigitCount ≤ "0007".length ∧
    ∃ (doc : Document) (nameNode textNode : Node) (pre d : List Char),
      (Sample.chapterService "Naruto 7").Md.remote [] (Sample.chapterOf "Naruto 7").Url =
        .ok doc ∧
      doc.Find "#mangainfo h1" = [nameNode] ∧ nameNode.FirstChild = some textNode ∧
      textNode.Data.data = pre ++ ' ' :: d ∧ d.all Char.isDigit = true ∧
      ("0007".length = serviceMangaReaderChapterDigitCount ↔ decimalValue d < 10000)) :=
  ⟨by decide,
    chapterName_width (Sample.chapterService "Naruto 7") (Sample.chapterOf "Naruto 7") []
      "0007" (by decide)⟩


/-- A successful `ChapterName` on a text that ends in a space and a string of decimal
digits returns the value of that string padded to four digits. -/
theorem chapterName_success_of_text (service : MangaReaderService) (chapter : Chapter)
    (log : List URL) (doc : Document) (nameNode textNode : Node) (pre d : List Char)
    (name : String)
    (hf : service.Md.remote log chapter.Url = .ok doc)
    (hn : doc.Find "#mangainfo h1" = [nameNode])
    (hc : nameNode.FirstChild = some textNode)
    (ht : textNode.Data.data = pre ++ ' ' :: d)
    (hd : d.all Char.isDigit = true)
    (h : (service.ChapterName chapter log).1 = (name, none)) :
    name = zeroPadded 4 (decimalValue d) ∧ decimalValue d < 2 ^ 63 := by
  rw [chapterName_of_text service chapter log doc nameNode textNode hf hn hc] at h
  cases hg : regexpChapterNameGroup textNode.Data.data with
  | none => simp [hg] at h
  | some g =>
    obtain ⟨pre1, h1, h2, _⟩ := regexpChapterNameGroup_some _ _ hg
    have hgd : g = d :=
      split_last_space_unique pre1 pre g d (h1.symm.trans ht) (digits_no_space g h2)
        (digits_no_space d hd)
    subst hgd
    simp only [hg] at h
    by_cases hne : g = []
    · subst hne
      have : Atoi (String.mk []) = (0, some (.numError "Atoi" "" ErrSyntax)) := Atoi_digits_empty
      simp [this] at h
    · by_cases hv : decimalValue g < 2 ^ 63
      · rw [Atoi_digits g hne h2 hv] at h
        simp only [Prod.mk.injEq, and_true] at h
        exact ⟨by rw [← h, formatChapter_natCast], hv⟩
      · rw [Atoi_digits_overflow g h2 (by omega)] at h
        simp at h

theorem string_lt_iff_data (s t : String) : s < t ↔ List.lt s.data t.data := by
  rw [String.lt_iff_toList_lt]
  exact (List.lt_iff_lex_lt _ _).symm

/-! ## Order and idempotence of chapter names -/

/-- C13, as stated, fails: the display texts `Naruto 9999` and `Naruto 10000` give
the names `9999` and `10000`, and 9999 < 10000 while `9999` is not smaller than
`10000` in the order of strings. -/
theorem chapterName_order_five_digits :
    ¬ ∀ (service1 service2 : MangaReaderService) (chapter1 chapter2 : Chapter)
        (log1 log2 : List URL) (doc1 doc2 : Document)
        (nameNode1 textNode1 nameNode2 textNode2 : Node) (pre1 pre2 : String) (j k : Nat)
        (name1 name2 : String),
      service1.Md.remote log1 chapter1.Url = .ok doc1 →
      doc1.Find "#mangainfo h1" = [nameNode1] →
      nameNode1.FirstChild = some textNode1 →
      textNode1.Data = pre1 ++ " " ++ Nat.repr j →
      service2.Md.remote log2 chapter2.Url = .ok doc2 →
      doc2.Find "#mangainfo h1" = [nameNode2] →
      nameNode2.FirstChild = some textNode2 →
      textNode2.Data = pre2 ++ " " ++ Nat.repr k →
      (service1.ChapterName chapter1 log1).1 = (name1, none) →
      (service2.ChapterName chapter2 log2).1 = (name2, none) →
      (j < k ↔ name1 < name2) ∧ (j = k ↔ name1 = name2) := by
  intro h
  have h1 := h (Sample.chapterService "Naruto 9999") (Sample.chapterService "Naruto 10000")
    (Sample.chapterOf "Naruto 9999") (Sample.chapterOf "Naruto 10000") [] []
    (Sample.namedChapterDoc "Naruto 9999") (Sample.namedChapterDoc "Naruto 10000")
    (Sample.elem "h1" [] [Sample.text "Naruto 9999"]) (Sample.text "Naruto 9999")
    (Sample.elem "h1" [] [Sample.text "Naruto 10000"]) (Sample.text "Naruto 10000")
    "Naruto" "Naruto" 9999 10000 "9999" "10000"
    rfl rfl rfl (by decide) rfl rfl rfl (by decide) (by decide) (by decide)
  have hlt : List.lt "9999".data "10000".data :=
    (string_lt_iff_data "9999" "10000").mp (h1.1.mp (by decide))
  cases hlt with
  | head _ _ h => exact absurd h (by decide)
  | tail _ h2 _ => exact h2 (by decide)

/-- C13, amended: for two display texts on which `ChapterName` succeeds, each
ending in a space and a string of decimal digits, of values `j` and `k`: the two
names are equal exactly when `j = k`; and when `j` and `k` are both below 10000
(names of four characters), `j < k` exactly when the first name is smaller than
the second in the order of strings. -/
theorem chapterName_order (service1 service2 : MangaReaderService)
    (chapter1 chapter2 : Chapter) (log1 log2 : List URL) (doc1 doc2 : Document)
    (nameNode1 textNode1 nameNode2 textNode2 : Node) (pre1 d1 pre2 d2 : List Char)
    (name1 name2 : String)
    (hf1 : service1.Md.remote log1 chapter1.Url = .ok doc1)
    (hn1 : doc1.Find "#mangainfo h1" = [nameNode1])
    (hc1 : nameNode1.FirstChild = some textNode1)
    (ht1 : textNode1.Data.data = pre1 ++ ' ' :: d1)
    (hd1 : d1.all Char.isDigit = true)
    (hf2 : service2.Md.remote log2 chapter2.Url = .ok doc2)
    (hn2 : doc2.Find "#mangainfo h1" = [nameNode2])
    (hc2 : nameNode2.FirstChild = some textNode2)
    (ht2 : textNode2.Data.data = pre2 ++ ' ' :: d2)
    (hd2 : d2.all Char.isDigit = true)
    (h1 : (service1.ChapterName chapter1 log1).1 = (name1, none))
    (h2 : (service2.ChapterName chapter2 log2).1 = (name2, none)) :
    (decimalValue d1 = decimalValue d2 ↔ name1 = name2) ∧
    (decimalValue d1 < 10000 → decimalValue d2 < 10000 →
      (decimalValue d1 < decimalValue d2 ↔ name1 < name2)) := by
  obtain ⟨rfl, _⟩ := chapterName_success_of_text service1 chapter1 log1 doc1 nameNode1
    textNode1 pre1 d1 name1 hf1 hn1 hc1 ht1 hd1 h1
  obtain ⟨rfl, _⟩ := chapterName_success_of_text service2 chapter2 log2 doc2 nameNode2
    textNode2 pre2 d2 name2 hf2 hn2 hc2 ht2 hd2 h2
  constructor
  · constructor
    · intro h
      rw [h]
    · intro h
      have := congrArg (fun s : String => decimalValue s.data) h
      simpa only [zeroPadded_value] using this
  · intro hj hk
    have hl1 := zeroPadded_length_eq 4 (decimalValue d1) (by norm_num) (by norm_num; exact hj)
    have hl2 := zeroPadded_length_eq 4 (decimalValue d2) (by norm_num) (by norm_num; exact hk)
    have hlex := digits_lt_iff _ _ (hl1.trans hl2.symm) (zeroPadded_digits 4 (decimalValue d1))
      (zeroPadded_digits 4 (decimalValue d2))
    rw [zeroPadded_value, zeroPadded_value] at hlex
    exact hlex.symm.trans (string_lt_iff_data _ _).symm

/-- C13, amended, on sample chapter pages: `Naruto 7` and `Naruto 123` give `0007`
and `0123`, in the order of 7 and 123. -/
theorem chapterName_order_witness :
    ((Sample.chapterService "Naruto 7").ChapterName (Sample.chapterOf "Naruto 7") []).1 =
      ("0007", none) ∧
    ((Sample.chapterService "Naruto 123").ChapterName (Sample.chapterOf "Naruto 123") []).1 =
      ("0123", none) ∧
    decimalValue "7".data = 7 ∧ decimalValue "123".data = 123 ∧
    ((decimalValue "7".data = decimalValue "123".data ↔ ("0007" : String) = "0123") ∧
    (decimalValue "7".data < 10000 → decimalValue "123".data < 10000 →
      (decimalValue "7".data < decimalValue "123".data ↔ ("0007" : String) < "0123"))) :=
  ⟨by decide, by decide, by decide, by decide,
    chapterName_order (Sample.chapterService "Naruto 7") (Sample.chapterService "Naruto 123")
      (Sample.chapterOf "Naruto 7") (Sample.chapterOf "Naruto 123") [] []
      (Sample.namedChapterDoc "Naruto 7") (Sample.namedChapterDoc "Naruto 123")
      (Sample.elem "h1" [] [Sample.text "Naruto 7"]) (Sample.text "Naruto 7")
      (Sample.elem "h1" [] [Sample.text "Naruto 123"]) (Sample.text "Naruto 123")
      "Naruto".data "7".data "Naruto".data "123".data "0007" "0123"
      rfl rfl rfl rfl (by decide) rfl rfl rfl rfl (by decide) (by decide) (by decide)⟩

/-- C14, as stated, fails: `Naruto 7` gives the name `0007`, and on the display
text made of the part `Naruto\nChapter`, a space and `0007`, `ChapterName` fails
with the format error. -/
theorem chapterName_idempotent_line_feed :
    ¬ ∀ (service1 service2 : MangaReaderService) (chapter1 chapter2 : Chapter)
        (log1 log2 : List URL) (doc2 : Document) (nameNode2 textNode2 : Node)
        (pre : String) (name : String),
      (service1.ChapterName chapter1 log1).1 = (name, none) →
      service2.Md.remote log2 chapter2.Url = .ok doc2 →
      doc2.Find "#mangainfo h1" = [nameNode2] →
      nameNode2.FirstChild = some textNode2 →
      textNode2.Data = pre ++ " " ++ name →
      (service2.ChapterName chapter2 log2).1 = (name, none) := by
  intro h
  have h1 := h (Sample.chapterService "Naruto 7")
    (Sample.chapterService "Naruto\nChapter 0007")
    (Sample.chapterOf "Naruto 7") (Sample.chapterOf "Naruto\nChapter 0007") [] []
    (Sample.namedChapterDoc "Naruto\nChapter 0007")
    (Sample.elem "h1" [] [Sample.text "Naruto\nChapter 0007"])
    (Sample.text "Naruto\nChapter 0007") "Naruto\nChapter" "0007"
    (by decide) rfl rfl rfl (by decide)
  exact absurd h1 (by decide)

/-- C14, amended: when `ChapterName` succeeds with name `n`, then on a document
whose display text is a part without line feed, a space and `n`, `ChapterName`
succeeds and returns `n` again. -/
theorem chapterName_idempotent (service1 service2 : MangaReaderService)
    (chapter1 chapter2 : Chapter) (log1 log2 : List URL) (doc2 : Document)
    (nameNode2 textNode2 : Node) (pre : String) (name : String)
    (h1 : (service1.ChapterName chapter1 log1).1 = (name, none))
    (hf2 : service2.Md.remote log2 chapter2.Url = .ok doc2)
    (hn2 : doc2.Find "#mangainfo h1" = [nameNode2])
    (hc2 : nameNode2.FirstChild = some textNode2)
    (ht2 : textNode2.Data = pre ++ " " ++ name)
    (hp : '\n' ∉ pre.data) :
    (service2.ChapterName chapter2 log2).1 = (name, none) := by
  obtain ⟨_, _, _, _, d, _, _, _, _, _, _, _, hv, rfl⟩ :=
    chapterName_success_token service1 chapter1 log1 name h1
  have hdig := zeroPadded_digits 4 (decimalValue d)
  have hval := zeroPadded_value 4 (decimalValue d)
  have hne : (zeroPadded 4 (decimalValue d)).data ≠ [] := by
    intro hnil
    have := zeroPadded_length_ge 4 (decimalValue d)
    rw [hnil] at this
    simp at this
  have htext : textNode2.Data.data = pre.data ++ ' ' :: (zeroPadded 4 (decimalValue d)).data := by
    rw [ht2]
    simp only [String.data_append, List.append_assoc]
    rfl
  rw [chapterName_of_text service2 chapter2 log2 doc2 nameNode2 textNode2 hf2 hn2 hc2, htext,
    regexpChapterNameGroup_append pre.data _ hp hdig]
  simp only
  rw [Atoi_digits _ hne hdig (by rw [hval]; exact hv), hval]
  simp only [formatChapter_natCast]

/-- C14, amended, on sample chapter pages: `Naruto 7` gives `0007`, and
`Naruto 0007` gives `0007` again. -/
theorem chapterName_idempotent_witness :
    ((Sample.chapterService "Naruto 7").ChapterName (Sample.chapterOf "Naruto 7") []).1 =
      ("0007", none) ∧
    '\n' ∉ "Naruto".data ∧
    ((Sample.chapterService "Naruto 0007").ChapterName (Sample.chapterOf "Naruto 0007") []).1 =
      ("0007", none) :=
  ⟨by decide, by decide,
    chapterName_idempotent (Sample.chapterService "Naruto 7")
      (Sample.chapterService "Naruto 0007") (Sample.chapterOf "Naruto 7")
      (Sample.chapterOf "Naruto 0007") [] [] (Sample.namedChapterDoc "Naruto 0007")
      (Sample.elem "h1" [] [Sample.text "Naruto 0007"]) (Sample.text "Naruto 0007")
      "Naruto" "0007" (by decide) rfl rfl rfl (by decide) (by decide)⟩

/-! ## Transport errors, page image, delegation, fetches -/

/-- C15: when the fetcher answers the fetch of `u` with the error `e`, every
operation on `u` returns exactly `e` together with its zero result: `Identify`
when `u` is supported, and `MangaName`, `MangaChapters`, `ChapterName`,
`ChapterPages` and `PageImageUrl` on an entity whose locator is `u`. -/
theorem transport_error_unchanged (service : MangaReaderService) (u : URL) (log : List URL)
    (e : GoError)
    (hf : service.Md.remote log u = .error e) :
    (service.Supports u = true → (service.Identify u log).1 = (none, some e)) ∧
    (∀ owner : Service,
      (service.MangaName { Url := u, Service := owner } log).1 = ("", some e) ∧
      (service.MangaChapters { Url := u, Service := owner } log).1 = (none, some e) ∧
      (service.ChapterName { Url := u, Service := owner } log).1 = ("", some e) ∧
      (service.ChapterPages { Url := u, Service := owner } log).1 = (none, some e) ∧
      (∀ urlParse : String → Except GoError URL,
        (service.PageImageUrl urlParse { Url := u, Service := owner } log).1 =
          (none, some e))) := by
  refine ⟨?_, fun owner => ⟨?_, ?_, ?_, ?_, fun urlParse => ?_⟩⟩
  · intro hs
    unfold MangaReaderService.Identify MangaDownloader.HttpGetHtmlDoc
    simp [hs, hf]
  · unfold MangaReaderService.MangaName MangaDownloader.HttpGetHtmlDoc
    simp only [hf]
  · unfold MangaReaderService.MangaChapters MangaDownloader.HttpGetHtmlDoc
    simp only [hf]
  · unfold MangaReaderService.ChapterName MangaDownloader.HttpGetHtmlDoc
    simp only [hf]
  · unfold MangaReaderService.ChapterPages MangaDownloader.HttpGetHtmlDoc
    simp only [hf]
  · unfold MangaReaderService.PageImageUrl MangaDownloader.HttpGetHtmlDoc
    simp only [hf]

/-- C15, on the sample site: the path `/missing` is answered with the error
`404 Not Found`, which `Identify` and `MangaName` return as it is. -/
theorem transport_error_unchanged_witness :
    Sample.service.Supports (Sample.url "/missing") = true ∧
    (Sample.service.Identify (Sample.url "/missing") []).1 =
      (none, some (.other "404 Not Found")) ∧
    (Sample.service.MangaName
      { Url := Sample.url "/missing", Service := .mangaReader Sample.service } []).1 =
      ("", some (.other "404 Not Found")) :=
  ⟨by decide,
    (transport_error_unchanged Sample.service (Sample.url "/missing") []
      (.other "404 Not Found") rfl).1 (by decide),
    ((transport_error_unchanged Sample.service (Sample.url "/missing") []
      (.other "404 Not Found") rfl).2 (.mangaReader Sample.service)).1⟩

/-- C16: on a fetched page document, `PageImageUrl` returns the error
`Image node not found` and no locator when `#img` matches no element or more than
one; when it matches exactly one element the result is the outcome of `url.Parse`
on the `src` attribute of that element: the locator, or the error of the parse. -/
theorem pageImageUrl_single_image (urlParse : String → Except GoError URL)
    (service : MangaReaderService) (page : Page) (log : List URL) (doc : Document)
    (hf : service.Md.remote log page.Url = .ok doc) :
    ((doc.Find "#img").length ≠ 1 →
      (service.PageImageUrl urlParse page log).1 =
        (none, some (.errorsNew "Image node not found"))) ∧
    (∀ imgNode : Node, doc.Find "#img" = [imgNode] →
      (service.PageImageUrl urlParse page log).1 =
        match urlParse (htmlGetNodeAttribute imgNode "src") with
        | .ok imageUrl => (some imageUrl, none)
        | .error err => (none, some err)) := by
  constructor
  · intro hlen
    unfold MangaReaderService.PageImageUrl MangaDownloader.HttpGetHtmlDoc
    simp only [hf, serviceMangaReaderHtmlSelectorPageImage]
    rw [dif_pos hlen]
  · intro imgNode himg
    unfold MangaReaderService.PageImageUrl MangaDownloader.HttpGetHtmlDoc
    simp only [hf, serviceMangaReaderHtmlSelectorPageImage]
    have hlen : ¬ (doc.Find "#img").length ≠ 1 := by simp [himg]
    rw [dif_neg hlen, get_zero_of_eq_singleton (doc.Find "#img") imgNode _ himg]
    cases urlParse (htmlGetNodeAttribute imgNode "src") <;> rfl

/-- C16, on the sample pages: the page with one image gives the parsed address of
the image, the page with two images gives the error. -/
theorem pageImageUrl_single_image_witness :
    ((Sample.pageService.PageImageUrl Sample.urlParse
        { Url := Sample.url "/123-manga/chapter-7", Service := .mangaReader Sample.pageService }
        []).1 =
      (some { Scheme := "http", Host := "i1.mangareader.net", Path := "/123-manga/7/1.jpg" },
        none)) ∧
    (Sample.twoImagesDoc.Find "#img").length ≠ 1 ∧
    ((Sample.pageService.PageImageUrl Sample.urlParse
        { Url := Sample.url "/two-images", Service := .mangaReader Sample.pageService }
        []).1 =
      (none, some (.errorsNew "Image node not found"))) :=
  ⟨(pageImageUrl_single_image Sample.urlParse Sample.pageService
      { Url := Sample.url "/123-manga/chapter-7", Service := .mangaReader Sample.pageService }
      [] Sample.pageDoc rfl).2 _ rfl,
    by decide,
    (pageImageUrl_single_image Sample.urlParse Sample.pageService
      { Url := Sample.url "/two-images", Service := .mangaReader Sample.pageService }
      [] Sample.twoImagesDoc rfl).1 (by decide)⟩

/-- C17: the accessors of a Manga are the operations of its owning service applied
to the Manga itself: `Name` returns the pair of `MangaName` and `Chapters` the
pair of `MangaChapters`, with the same effect on the fetch log. -/
theorem manga_accessors_delegate (manga : Manga) (log : List URL) :
    manga.Name log = manga.Service.MangaName manga log ∧
    manga.Chapters log = manga.Service.MangaChapters manga log ∧
    (∀ (service : MangaReaderService) (u : URL),
      Manga.Name { Url := u, Service := .mangaReader service } log =
        service.MangaName { Url := u, Service := .mangaReader service } log ∧
      Manga.Chapters { Url := u, Service := .mangaReader service } log =
        service.MangaChapters { Url := u, Service := .mangaReader service } log) :=
  ⟨rfl, rfl, fun _ _ => ⟨rfl, rfl⟩⟩

/-- C18: every operation performs exactly one fetch, of its own locator, appended
to the fetch log, except `Identify` on an unsupported URL, which performs none;
a second call of the same accessor on the same entity fetches the locator a
second time. -/
theorem one_fetch_per_call (service : MangaReaderService) (u : URL) (owner : Service)
    (urlParse : String → Except GoError URL) (log : List URL) :
    (service.Identify u log).2 = (if service.Supports u = true then log ++ [u] else log) ∧
    (service.MangaName { Url := u, Service := owner } log).2 = log ++ [u] ∧
    (service.MangaChapters { Url := u, Service := owner } log).2 = log ++ [u] ∧
    (service.ChapterName { Url := u, Service := owner } log).2 = log ++ [u] ∧
    (service.ChapterPages { Url := u, Service := owner } log).2 = log ++ [u] ∧
    (service.PageImageUrl urlParse { Url := u, Service := owner } log).2 = log ++ [u] ∧
    (service.MangaName { Url := u, Service := owner }
      (service.MangaName { Url := u, Service := owner } log).2).2 = log ++ [u, u] ∧
    (service.MangaChapters { Url := u, Service := owner }
      (service.MangaChapters { Url := u, Service := owner } log).2).2 = log ++ [u, u] ∧
    (service.ChapterName { Url := u, Service := owner }
      (service.ChapterName { Url := u, Service := owner } log).2).2 = log ++ [u, u] ∧
    (service.ChapterPages { Url := u, Service := owner }
      (service.ChapterPages { Url := u, Service := owner } log).2).2 = log ++ [u, u] ∧
    (service.PageImageUrl urlParse { Url := u, Service := owner }
      (service.PageImageUrl urlParse { Url := u, Service := owner } log).2).2 =
        log ++ [u, u] := by
  have hId : ∀ l : List URL,
      (service.Identify u l).2 = (if service.Supports u = true then l ++ [u] else l) := by
    intro l
    unfold MangaReaderService.Identify MangaDownloader.HttpGetHtmlDoc
    by_cases hs : service.Supports u = true
    · simp only [hs, Bool.not_true, Bool.false_eq_true, if_false, if_true]
      cases service.Md.remote l u with
      | error e => rfl
      | ok doc =>
        simp only
        split
        · rfl
        · split <;> rfl
    · simp [hs]
  have hMN : ∀ l : List URL,
      (service.MangaName { Url := u, Service := owner } l).2 = l ++ [u] := by
    intro l
    unfold MangaReaderService.MangaName MangaDownloader.HttpGetHtmlDoc
    cases service.Md.remote l u with
    | error e => rfl
    | ok doc =>
      simp only
      split
      · rfl
      · split <;> rfl
  have hMC : ∀ l : List URL,
      (service.MangaChapters { Url := u, Service := owner } l).2 = l ++ [u] := by
    intro l
    unfold MangaReaderService.MangaChapters MangaDownloader.HttpGetHtmlDoc
    cases service.Md.remote l u <;> rfl
  have hCN : ∀ l : List URL,
      (service.ChapterName { Url := u, Service := owner } l).2 = l ++ [u] := by
    intro l
    unfold MangaReaderService.ChapterName MangaDownloader.HttpGetHtmlDoc
    cases service.Md.remote l u with
    | error e => rfl
    | ok doc =>
      simp only
      split
      · rfl
      · split
        · rfl
        · split
          · rfl
          · split <;> rfl
  have hCP : ∀ l : List URL,
      (service.ChapterPages { Url := u, Service := owner } l).2 = l ++ [u] := by
    intro l
    unfold MangaReaderService.ChapterPages MangaDownloader.HttpGetHtmlDoc
    cases service.Md.remote l u <;> rfl
  have hPI : ∀ l : List URL,
      (service.PageImageUrl urlParse { Url := u, Service := owner } l).2 = l ++ [u] := by
    intro l
    unfold MangaReaderService.PageImageUrl MangaDownloader.HttpGetHtmlDoc
    cases service.Md.remote l u with
    | error e => rfl
    | ok doc =>
      simp only
      split
      · rfl
      · split <;> rfl
  refine ⟨hId log, hMN log, hMC log, hCN log, hCP log, hPI log, ?_, ?_, ?_, ?_, ?_⟩
  · rw [hMN, hMN, List.append_assoc]; rfl
  · rw [hMC, hMC, List.append_assoc]; rfl
  · rw [hCN, hCN, List.append_assoc]; rfl
  · rw [hCP, hCP, List.append_assoc]; rfl
  · rw [hPI, hPI, List.append_assoc]; rfl

/-! ## Conversion error and decision rule -/

/-- C19: when the chapter-name pattern matches the display text and the matched
token is empty or has a value beyond the platform integer, `ChapterName` returns
the empty name and the error of `strconv.Atoi` on the token, a syntax error for
the empty token and a range error otherwise, and not the error
`Invalid name format`. -/
theorem chapterName_conversion_error (service : MangaReaderService) (chapter : Chapter)
    (log : List URL) (doc : Document) (nameNode textNode : Node) (token : String)
    (hf : service.Md.remote log chapter.Url = .ok doc)
    (hn : doc.Find "#mangainfo h1" = [nameNode])
    (hc : nameNode.FirstChild = some textNode)
    (hm : serviceMangaReaderRegexpChapterName textNode.Data = some [textNode.Data, token])
    (hbad : token = "" ∨ 2 ^ (intSize - 1) ≤ decimalValue token.data) :
    (service.ChapterName chapter log).1 =
        ("", some (.numError "Atoi" token (if token = "" then ErrSyntax else ErrRange))) ∧
      (service.ChapterName chapter log).1 ≠ ("", some (.errorsNew "Invalid name format")) ∧
      (Atoi token).2 =
        some (.numError "Atoi" token (if token = "" then ErrSyntax else ErrRange)) := by
  rw [regexpChapterName_eq] at hm
  cases hg : regexpChapterNameGroup textNode.Data.data with
  | none => simp [hg] at hm
  | some g =>
    obtain ⟨_, _, hdig, _⟩ := regexpChapterNameGroup_some _ _ hg
    simp only [hg, Option.map_some', Option.some.injEq, List.cons.injEq, and_true,
      true_and] at hm
    subst hm
    rw [chapterName_of_text service chapter log doc nameNode textNode hf hn hc, hg]
    simp only
    by_cases hne : g = []
    · subst hne
      have hat : Atoi (String.mk []) = (0, some (.numError "Atoi" "" ErrSyntax)) :=
        Atoi_digits_empty
      rw [hat]
      refine ⟨?_, ?_, ?_⟩
      · rfl
      · simp
      · rfl
    · have hs : (String.mk g = "") = False := by
        simp only [eq_iff_iff, iff_false]
        intro h
        exact hne (congrArg String.data h)
      have hv : 2 ^ 63 ≤ decimalValue g := by
        rcases hbad with h | h
        · exact absurd (congrArg String.data h) hne
        · simpa [intSize] using h
      rw [Atoi_digits_overflow g hdig hv]
      simp only [hs, if_false]
      refine ⟨trivial, ?_, trivial⟩
      simp

/-- C19, on sample chapter pages: the display text `Naruto `, ending in a space,
gives the syntax error of `Atoi` on the empty token, and the display text
`Naruto 9223372036854775808` gives its range error. -/
theorem chapterName_conversion_error_witness :
    (((Sample.chapterService "Naruto ").ChapterName (Sample.chapterOf "Naruto ") []).1 =
        ("", some (.numError "Atoi" "" "invalid syntax")) ∧
      ((Sample.chapterService "Naruto ").ChapterName (Sample.chapterOf "Naruto ") []).1 ≠
        ("", some (.errorsNew "Invalid name format")) ∧
      (Atoi "").2 = some (.numError "Atoi" "" "invalid syntax")) ∧
    (2 ^ (intSize - 1) ≤ decimalValue "9223372036854775808".data ∧
      ((Sample.chapterService "Naruto 9223372036854775808").ChapterName
          (Sample.chapterOf "Naruto 9223372036854775808") []).1 =
        ("", some (.numError "Atoi" "9223372036854775808" "value out of range")) ∧
      ((Sample.chapterService "Naruto 9223372036854775808").ChapterName
          (Sample.chapterOf "Naruto 9223372036854775808") []).1 ≠
        ("", some (.errorsNew "Invalid name format")) ∧
      (Atoi "9223372036854775808").2 =
        some (.numError "Atoi" "9223372036854775808" "value out of range")) :=
  ⟨chapterName_conversion_error (Sample.chapterService "Naruto ")
      (Sample.chapterOf "Naruto ") [] (Sample.namedChapterDoc "Naruto ")
      (Sample.elem "h1" [] [Sample.text "Naruto "]) (Sample.text "Naruto ") ""
      rfl rfl rfl (by decide) (Or.inl rfl),
    by decide,
    chapterName_conversion_error (Sample.chapterService "Naruto 9223372036854775808")
      (Sample.chapterOf "Naruto 9223372036854775808") []
      (Sample.namedChapterDoc "Naruto 9223372036854775808")
      (Sample.elem "h1" [] [Sample.text "Naruto 9223372036854775808"])
      (Sample.text "Naruto 9223372036854775808") "9223372036854775808"
      rfl rfl rfl (by decide) (Or.inr (by decide))⟩

/-- C20: on a supported URL whose fetch succeeds, with `m` the number of elements
matching `#chapterlist` and `c` the number matching `#pageMenu`, `Identify`
returns a Manga if `m = 1`, whatever `c` is, otherwise a Chapter if `c = 1`,
otherwise the error `Unknown url`; hence it fails exactly when `m ≠ 1` and
`c ≠ 1`. -/
theorem identify_decision_rule (service : MangaReaderService) (u : URL) (log : List URL)
    (doc : Document)
    (hs : service.Supports u = true)
    (hf : service.Md.remote log u = .ok doc) :
    (service.Identify u log).1 =
      (if (doc.Find "#chapterlist").length = 1 then
        (some (Entity.manga { Url := u, Service := .mangaReader service }), none)
      else if (doc.Find "#pageMenu").length = 1 then
        (some (Entity.chapter { Url := u, Service := .mangaReader service }), none)
      else (none, some (.errorsNew "Unknown url"))) ∧
    ((service.Identify u log).1.2.isSome = true ↔
      ((doc.Find "#chapterlist").length ≠ 1 ∧ (doc.Find "#pageMenu").length ≠ 1)) := by
  have key : (service.Identify u log).1 =
      (if (doc.Find "#chapterlist").length = 1 then
        (some (Entity.manga { Url := u, Service := .mangaReader service }), none)
      else if (doc.Find "#pageMenu").length = 1 then
        (some (Entity.chapter { Url := u, Service := .mangaReader service }), none)
      else (none, some (.errorsNew "Unknown url"))) := by
    unfold MangaReaderService.Identify MangaDownloader.HttpGetHtmlDoc
    simp only [hs, hf, serviceMangaReaderHtmlSelectorIdentifyManga,
      serviceMangaReaderHtmlSelectorIdentifyChapter, Bool.not_true, Bool.false_eq_true,
      if_false]
    split
    · rfl
    · split <;> rfl
  refine ⟨key, ?_⟩
  rw [key]
  by_cases hm : (doc.Find "#chapterlist").length = 1
  · simp [hm]
  · by_cases hc : (doc.Find "#pageMenu").length = 1
    · simp [hm, hc]
    · simp [hm, hc]

/-- C20, on the sample site: the page with both markers, each once, is a Manga. -/
theorem identify_decision_rule_witness :
    Sample.service.Supports (Sample.url "/both") = true ∧
    (Sample.bothDoc.Find "#chapterlist").length = 1 ∧
    (Sample.bothDoc.Find "#pageMenu").length = 1 ∧
    ((Sample.service.Identify (Sample.url "/both") []).1 =
      (if (Sample.bothDoc.Find "#chapterlist").length = 1 then
        (some (Entity.manga
          { Url := Sample.url "/both", Service := .mangaReader Sample.service }), none)
      else if (Sample.bothDoc.Find "#pageMenu").length = 1 then
        (some (Entity.chapter
          { Url := Sample.url "/both", Service := .mangaReader Sample.service }), none)
      else (none, some (.errorsNew "Unknown url"))) ∧
    ((Sample.service.Identify (Sample.url "/both") []).1.2.isSome = true ↔
      ((Sample.bothDoc.Find "#chapterlist").length ≠ 1 ∧
        (Sample.bothDoc.Find "#pageMenu").length ≠ 1))) :=
  ⟨by decide, by decide, by decide,
    identify_decision_rule Sample.service (Sample.url "/both") [] Sample.bothDoc
      (by decide) rfl⟩
end Mangadownloader
